import Mathlib

/-!
Verification of nyx's connection display core (`nyx/connections/conn_entry.py`,
the `ConnectionLine` class) against its natural-language specification.

The embedding works over `Str := List Char`.  Python string operations that the
source uses (`%`-style formatting, slicing, `rfind`, `rstrip`) are modelled
first, together with `stem.util.str_tools.crop`, which `conn_entry.py` relies
on for all truncation.  External collaborators (tor controller, consensus and
port-usage trackers, configuration) are supplied through an explicit
environment record, mirroring the facts the code reads from them.
-/

/-- Strings are modelled as lists of characters. -/
abbrev Str := List Char

/-- Python `' ' * n`: `n` copies of a space, empty when `n` is negative. -/
def spaces (n : Int) : Str := List.replicate n.toNat ' '

/-- Python `'%-Ns' % s` with a nonnegative literal width `N`: left justify by
right-padding with spaces up to width `n` (no-op when `s` is at least that
long). -/
def ljust (n : Int) (s : Str) : Str := s ++ spaces (n - s.length)

/-- Python `('%%-%is' % w) % s` where the width `w` is spliced into the format
string at runtime.  For negative `w` the rendered format (e.g. `'%--5s'`) parses
the minus sign as a repeated flag, so the effective pad width is `|w|`. -/
def ljustDyn (w : Int) (s : Str) : Str := ljust w.natAbs s

/-- Python `'%Ns' % s`: right justify by left-padding with spaces. -/
def rjust (n : Int) (s : Str) : Str := spaces (n - s.length) ++ s

/-- Python `s[:n]`, including the negative-index case (`s[:-k]` drops the last
`k` characters). -/
def pySliceTo (s : Str) (n : Int) : Str :=
  if 0 ≤ n then s.take n.toNat else s.take (s.length - (-n).toNat)

/-- Characters Python's `str.strip` family treats as whitespace. -/
def pyIsSpace (c : Char) : Bool :=
  c = ' ' ∨ c = '\t' ∨ c = '\n' ∨ c = '\x0b' ∨ c = '\x0c' ∨ c = '\r'

/-- Python `s.rstrip()`. -/
def rstrip (s : Str) : Str := (s.reverse.dropWhile pyIsSpace).reverse

/-- Index of the last occurrence of `c` in `s`, if any. -/
def lastIdxOf (c : Char) : Str → Option Nat
  | [] => none
  | a :: t =>
    match lastIdxOf c t with
    | some i => some (i + 1)
    | none => if a = c then some 0 else none

/-- Python `s.rfind(' ', 0, stop)` (with nonnegative `stop`): index of the last
space before position `stop`, or `-1`. -/
def rfindSpace (s : Str) (stop : Nat) : Int :=
  match lastIdxOf ' ' (s.take stop) with
  | some i => (i : Int)
  | none => -1

/-- Index of the first occurrence of `c` in `s`, if any. -/
def firstIdxOf (c : Char) : Str → Option Nat
  | [] => none
  | a :: t => if a = c then some 0 else (firstIdxOf c t).map (· + 1)

/-- Python `s.find(' ', start)` (with nonnegative `start`): index of the first
space at or after `start`, or `-1`. -/
def findSpace (s : Str) (start : Nat) : Int :=
  match firstIdxOf ' ' (s.drop start) with
  | some i => (start + i : Nat)
  | none => -1

/-- Fuel-driven core of the decimal rendering of a natural number (the fuel
only needs to exceed the digit count). -/
def natStrAux : Nat → Nat → Str
  | 0, _ => []
  | fuel + 1, n =>
    if n < 10 then [Char.ofNat (48 + n)]
    else natStrAux fuel (n / 10) ++ [Char.ofNat (48 + n % 10)]

/-- Python `str(n)` for a natural number: decimal digits. -/
def natStr (n : Nat) : Str := natStrAux (n + 1) n

/-- Decidable substring test: `pat` occurs contiguously inside `s`. -/
def strContains (s pat : Str) : Bool :=
  (List.range (s.length + 1)).any fun i => (s.drop i).take pat.length = pat

/-- `stem.util.str_tools.Ending`: how `crop` marks truncation. -/
inductive Ending where
  | noEnding
  | ellipse
  | hyphen
deriving DecidableEq

/-- The `include_crop` decision of `stem.util.str_tools.crop`: crop inside the
word at the effective size when at least `mwl` characters of that word would
remain (additionally honoring `min_crop` when set), otherwise back off to the
preceding word boundary. -/
def cropIncludeWord (msg : Str) (size1 mwl min_crop : Int) : Bool :=
  let last_wordbreak : Int := rfindSpace msg (size1 + 1).toNat
  let last_word_size : Int :=
    if last_wordbreak ≠ -1 then size1 - last_wordbreak - 1 else size1
  if last_word_size ≥ mwl ∧ min_crop ≠ 0 then
    let nwb := findSpace msg size1.toNat
    let next_wordbreak : Int := if nwb = -1 then (msg.length : Int) else nwb
    decide (next_wordbreak - size1 + 1 ≥ min_crop)
  else decide (last_word_size ≥ mwl)

/-- The message cropped back to the last word boundary before the effective
size (empty when there is none). -/
def cropWordbreakMsg (msg : Str) (size1 : Int) : Str :=
  if rfindSpace msg (size1 + 1).toNat = -1 then []
  else msg.take (rfindSpace msg (size1 + 1).toNat).toNat

/-- The word-boundary cropping core of `stem.util.str_tools.crop` (the stem
utility nyx uses for all truncation), after argument validation: `size1` is
the effective size and `mwl` the effective minimum word length.  An empty
string results when not even a minimum-length word fits; otherwise the crop
happens at `size1` or at the preceding word boundary per `cropIncludeWord`;
a hyphen replaces the last kept character, an ellipse is appended to nonempty
results.  `none` models a raised `IndexError`. -/
def cropBody (msg : Str) (size1 mwl min_crop : Int) (ending : Ending) :
    Option Str :=
  if size1 < mwl then some []
  else if cropIncludeWord msg size1 mwl min_crop then
    if ending = Ending.hyphen then
      if msg.take size1.toNat = [] then none
      else
        some (rstrip ((msg.take size1.toNat).take
          ((msg.take size1.toNat).length - 1)) ++ ['-'])
    else if ending = Ending.ellipse ∧ msg.take size1.toNat ≠ [] then
      some (rstrip (msg.take size1.toNat) ++ ('.' :: '.' :: ['.']))
    else some (msg.take size1.toNat)
  else
    if ending = Ending.ellipse ∧ cropWordbreakMsg msg size1 ≠ [] then
      some (rstrip (cropWordbreakMsg msg size1) ++ ('.' :: '.' :: ['.']))
    else some (cropWordbreakMsg msg size1)

/-- The effective crop size: an ellipse consumes three characters. -/
def cropEffectiveSize (size : Int) (ending : Ending) : Int :=
  if ending = Ending.ellipse then size - 3 else size

/-- The effective minimum word length: cropping a word with a hyphen needs one
extra character (when a nonzero minimum is set at all). -/
def cropEffectiveMwl (min_word_length : Option Int) (ending : Ending) : Int :=
  match min_word_length with
  | none => 0
  | some m => if m ≠ 0 ∧ ending = Ending.hyphen then m + 1 else m

/-- `stem.util.str_tools.crop(msg, size, min_word_length, min_crop, ending)`:
argument validation and effective-size adjustment, delegating to `cropBody`.
The whole message is returned when it already fits; a negative argument
raises (`none`). -/
def crop (msg : Str) (size : Int) (min_word_length : Option Int)
    (min_crop : Int) (ending : Ending) : Option Str :=
  if (msg.length : Int) ≤ size then some msg
  else if size < 0 then none
  else if min_word_length.getD 0 < 0 then none
  else if min_crop < 0 then none
  else
    cropBody msg (cropEffectiveSize size ending)
      (cropEffectiveMwl min_word_length ending) min_crop ending

example : crop (("This is a looooong message").data) 17 (some 4) 0 Ending.ellipse
    = some (("This is a looo...").data) := by decide
example : crop (("This is a looooong message").data) 12 (some 4) 0 Ending.ellipse
    = some (("This is a...").data) := by decide
example : crop (("This is a looooong message").data) 3 (some 4) 0 Ending.ellipse
    = some ([]) := by decide
example : crop (("Torrent").data) 6 (some 4) 0 Ending.hyphen
    = some (("Torre-").data) := by decide
example : crop (("Torrent").data) 3 (some 4) 0 Ending.hyphen
    = some ([]) := by decide

/-- Modelled from the spec: `nyx.connection_panel.Category`, the closed enum of
connection roles (the `connection_panel` module itself is outside the
translated core). -/
inductive Category where
  | INBOUND
  | OUTBOUND
  | EXIT
  | HIDDEN
  | SOCKS
  | CONTROL
  | DIRECTORY
  | CIRCUIT
deriving DecidableEq

/-- Modelled from the spec: `nyx.connection_panel.Listing`, the closed enum of
listing modes. -/
inductive Listing where
  | IP_ADDRESS
  | FINGERPRINT
  | NICKNAME
deriving DecidableEq

open Category Listing Ending

/-- The string value of a category (stem enums capitalize the first letter),
as used by `entry_type.upper()` and `len(entry_type)`. -/
def catLabel : Category → Str
  | INBOUND => ("Inbound").data
  | OUTBOUND => ("Outbound").data
  | EXIT => ("Exit").data
  | HIDDEN => ("Hidden").data
  | SOCKS => ("Socks").data
  | CONTROL => ("Control").data
  | DIRECTORY => ("Directory").data
  | CIRCUIT => ("Circuit").data

/-- `entry_type.upper()`. -/
def catUpper (c : Category) : Str := (catLabel c).map Char.toUpper

/-- Modelled from the spec: `nyx.connection_panel.CATEGORY_COLOR`, a fixed
category-derived color tag (the mapping lives in the untranslated panel
module; only its distinctness per category matters to the display core). -/
def CATEGORY_COLOR (c : Category) : Str := catLabel c

/-- A styled-text attribute: the curses color pair from
`nyx.util.ui_tools.get_color` plus the bold flag.  Modelled from the spec:
"text paired with a category-derived color/emphasis tag". -/
structure Fmt where
  color : Str
  bold : Bool
deriving DecidableEq

/-- The connection snapshot (`self.connection`), as supplied by the external
connection tracker. -/
structure Connection where
  local_address : Str
  local_port : Nat
  remote_address : Str
  remote_port : Nat
  start_time : Int
  is_legacy : Bool

/-- The six boolean configuration toggles read by `conn_entry.py` from the
`CONFIG` dictionary. -/
structure Config where
  show_ips : Bool
  show_exit_port : Bool
  show_fingerprint : Bool
  show_nickname : Bool
  show_destination : Bool
  show_expanded_ip : Bool

/-- Modelled from the spec: outcome of the port-usage tracker's `fetch(port)`
(`nyx.util.tracker`, outside the translated core): a resolved process
name/pid, a pending resolution (`UnresolvedResult`), or no known owner
(`UnknownApplication`). -/
inductive ProcessResult where
  | resolved (name : Str) (pid : Option Nat)
  | pending
  | unknown

/-- Consensus facts for one relay (`stem`'s router status entry), as read by
the detail page.  `published` holds the already-`strftime`-formatted
timestamp. -/
structure RouterStatusEntry where
  nickname : Str
  or_port : Nat
  dir_port : Option Nat
  published : Str
  flags : List Str

/-- Server-descriptor facts as read by the detail page.  `exit_policy_summary`
is `none` when the descriptor has no exit policy (rendered as `'unknown'`). -/
structure ServerDescriptor where
  exit_policy_summary : Option Str
  operating_system : Str
  tor_version : Str
  contact : Option Str

/-- Everything one `ConnectionLine` reads: its entry and connection plus the
external collaborators.  `relay_fingerprint`, `relay_nickname` and
`all_relay_fingerprints` model the consensus tracker; `port_usage_fetch` the
port-usage tracker; `port_usage` and `is_private_address` stem's connection
utilities; `external_address`, `conf_nickname`, `locale`,
`is_geoip_unavailable`, `network_status` and `server_descriptor` the tor
controller (modelled from the spec's external-interface contracts, these
modules being outside the translated core).  `time_label` stands for
`stem.util.str_tools.time_label(secs, 1)`, kept abstract because its
implementation goes through floating point. -/
structure Env where
  conn : Connection
  entry_type : Category
  entry_is_private : Bool
  include_port : Bool
  include_expanded_addresses : Bool
  config : Config
  external_address : Option Str
  conf_nickname : Option Str
  relay_fingerprint : Str → Nat → Option Str
  relay_nickname : Option Str → Option Str
  all_relay_fingerprints : Str → List (Nat × Str)
  port_usage_fetch : Nat → ProcessResult
  port_usage : Nat → Option Str
  is_private_address : Str → Bool
  is_geoip_unavailable : Bool
  locale : Str → Option Str
  network_status : Str → Option RouterStatusEntry
  server_descriptor : Str → Option ServerDescriptor
  time_label : Int → Str

/-- Python's `x if x else default` on an optional string: an absent or empty
value falls back to the default. -/
def pyOr (v default : Option Str) : Option Str :=
  match v with
  | some s => if s = [] then default else some s
  | none => default

/-- `ConnectionLine.get_fingerprint(default)`: consensus lookup by remote
address/port for the categories that have a resolvable ORPort, the default
otherwise. -/
def getFingerprint (env : Env) (default : Option Str) : Option Str :=
  if env.entry_type = OUTBOUND ∨ env.entry_type = CIRCUIT ∨
      env.entry_type = DIRECTORY ∨ env.entry_type = EXIT then
    pyOr (env.relay_fingerprint env.conn.remote_address env.conn.remote_port) default
  else default

/-- `get_fingerprint('UNKNOWN')` as the string the listing code interpolates. -/
def fingerprintStr (env : Env) : Str :=
  (getFingerprint env (some (("UNKNOWN").data))).getD (("UNKNOWN").data)

/-- `ConnectionLine.get_nickname(default)`: nickname of the resolved
fingerprint, with fallback. -/
def getNickname (env : Env) (default : Option Str) : Option Str :=
  pyOr (env.relay_nickname (getFingerprint env none)) default

/-- `get_nickname('UNKNOWN')` as the string the listing code interpolates. -/
def nicknameStr (env : Env) : Str :=
  (getNickname env (some (("UNKNOWN").data))).getD (("UNKNOWN").data)

/-- `ConnectionLine.get_locale(default)`: controller `ip-to-country` lookup
with fallback (`get_info` returns the default when the query fails). -/
def getLocale (env : Env) (default : Str) : Str :=
  (env.locale env.conn.remote_address).getD default

/-- The literal pieces of `LABEL_FORMAT = '%s  -->  %s  %s%s'` applied to the
four fields. -/
def labelFormat (src dst etc pad : Str) : Str :=
  src ++ ("  -->  ").data ++ dst ++ ("  ").data ++ etc ++ pad

/-- `len(LABEL_FORMAT % tuple([''] * 4)) + LABEL_MIN_PADDING`: the constant 11
used as the base of `used_space`. -/
def usedSpaceBase : Int := ((labelFormat [] [] [] []).length : Int) + 2

/-- `include_port and (CONFIG['features.connection.showExitPort'] or type != EXIT)`:
whether `get_destination_label` shows the remote port. -/
abbrev destIncludePort (env : Env) : Prop :=
  env.include_port ∧ (env.config.show_exit_port ∨ env.entry_type ≠ EXIT)

/-- The base `<addr>:<port>` destination of `get_destination_label`, with the
address scrubbed for private entries and the port subject to
`destIncludePort`. -/
def destAddress (env : Env) : Str :=
  (if env.entry_is_private then ("<scrubbed>").data
   else env.conn.remote_address) ++
  (if destIncludePort env then ':' :: natStr env.conn.remote_port else [])

/-- `space_available = max_length - len(destination_address) - 3`. -/
def destSpace (env : Env) (max_length : Int) : Int :=
  max_length - (destAddress env).length - 3

/-- The `BitTorrent`-to-`Torrent` substitution applied to an exit port's
purpose when it does not fit the available space. -/
def exitPurpose1 (env : Env) (p0 : Str) (max_length : Int) : Str :=
  if (p0.length : Int) > destSpace env max_length ∧ p0 = ("BitTorrent").data
  then ("Torrent").data else p0

/-- `ConnectionLine.get_destination_label(max_length, include_locale)`:
`<addr>:<port>` (scrubbed when private) plus an optional parenthesized
annotation (port purpose for exits, otherwise the locale) appended only when
at least five extra characters fit, hard-truncated to `max_length`.  `none`
models a propagated exception (unreachable from this function's branches). -/
def destinationLabel (env : Env) (max_length : Int) (include_locale : Bool) :
    Option Str :=
  if ((destAddress env).length : Int) + 5 ≤ max_length then
    if env.entry_type = EXIT ∧ destIncludePort env then
      match pyOr (env.port_usage env.conn.remote_port) none with
      | some purpose0 =>
        match crop (exitPurpose1 env purpose0 max_length)
            (destSpace env max_length) (some 4) 0 hyphen with
        | some purpose2 =>
          some (pySliceTo
            (destAddress env ++ (" (").data ++ purpose2 ++ (")").data)
            max_length)
        | none => none
      | none => some (pySliceTo (destAddress env) max_length)
    else if ¬ env.is_private_address env.conn.remote_address then
      match (if include_locale ∧ ¬ env.is_geoip_unavailable then
              [getLocale env (("??").data)] else ([] : List Str)) with
      | [] => some (pySliceTo (destAddress env) max_length)
      | locale0 :: _ =>
        some (pySliceTo
          (destAddress env ++ (" (").data ++ locale0 ++ (")").data)
          max_length)
    else some (pySliceTo (destAddress env) max_length)
  else some (pySliceTo (destAddress env) max_length)

/-- The command/pid label of the application-category branch of
`get_etc_content`: `'%s (%s)' % (name, pid)` when resolved with a (truthy)
pid, the bare name otherwise, `'resolving...'` while the tracker lookup is
pending and `'UNKNOWN'` when no owning process is known. -/
def appDisplayLabel (env : Env) (port : Nat) : Str :=
  match env.port_usage_fetch port with
  | ProcessResult.resolved name (some pid) =>
    if pid ≠ 0 then name ++ (" (").data ++ natStr pid ++ (")").data
    else name
  | ProcessResult.resolved name none => name
  | ProcessResult.pending => ("resolving...").data
  | ProcessResult.unknown => ("UNKNOWN").data

/-- The application-owned categories (SOCKS, HIDDEN, CONTROL), whose etc
field shows the command/pid instead of consensus columns. -/
abbrev appCategory (env : Env) : Prop :=
  env.entry_type = SOCKS ∨ env.entry_type = HIDDEN ∨ env.entry_type = CONTROL

/-- The port whose owning process is looked up: the local port for hidden
services, the remote port otherwise. -/
def appPort (env : Env) : Nat :=
  if env.entry_type = HIDDEN then env.conn.local_port
  else env.conn.remote_port

/-- The fingerprint column step shared by the IP_ADDRESS and NICKNAME
branches of `get_etc_content`: drawn (reserving exactly 42 characters: a
40-wide left-justified field plus two separators) when the width strictly
exceeds `used_space + 42` and the toggle is on. -/
def fpColumn (env : Env) (width : Int) : Str × Int :=
  if width > 0 + 42 ∧ env.config.show_fingerprint then
    (ljust 40 (fingerprintStr env) ++ ("  ").data, 42)
  else ([], 0)

/-- Whether the FINGERPRINT-mode branch appends the destination column. -/
abbrev fpModeLocaleIncluded (env : Env) (width : Int) : Prop :=
  width > 0 + 45 ∧ env.config.show_destination

/-- The nickname column width of the FINGERPRINT-mode branch: all remaining
width minus two, shrunk by 28 when the destination column is included. -/
def fpModeNickSpace (env : Env) (width : Int) : Int :=
  if fpModeLocaleIncluded env width then width - 0 - 2 - 28
  else width - 0 - 2

/-- `ConnectionLine.get_etc_content(width, listing_type)`: the optional
content.  Application-owned categories show the command/pid (an empty field
when the label does not fit); other categories allocate the fingerprint /
nickname / destination columns by listing mode, the result padded to the
requested width.  `none` models a propagated exception. -/
def getEtcContent (env : Env) (width : Int) (listing_type : Listing) :
    Option Str :=
  if appCategory env then
    if ((appDisplayLabel env (appPort env)).length : Int) < width then
      some (ljustDyn width (appDisplayLabel env (appPort env)))
    else some []
  else
    match destinationLabel env 26 true with
    | none => none
    | some destination_address =>
      if listing_type = IP_ADDRESS then
        if width > (fpColumn env width).2 + 10 ∧ env.config.show_nickname then
          match crop (nicknameStr env) (width - (fpColumn env width).2)
              (some 0) 0 ellipse with
          | none => none
          | some nickname_label =>
            some (ljustDyn width
              ((fpColumn env width).1 ++
                ljustDyn (width - (fpColumn env width).2) nickname_label ++
                ("  ").data))
        else some (ljustDyn width (fpColumn env width).1)
      else if listing_type = FINGERPRINT then
        if width > 0 + 17 then
          match (if env.config.show_nickname then
                  (match crop (nicknameStr env) (fpModeNickSpace env width)
                      (some 0) 0 ellipse with
                   | none => none
                   | some nickname_label =>
                     some (ljustDyn (fpModeNickSpace env width)
                         nickname_label ++ ("  ").data,
                       fpModeNickSpace env width + 2))
                 else some (([] : Str), (0 : Int))) with
          | none => none
          | some p =>
            if fpModeLocaleIncluded env width then
              some (ljustDyn width
                (p.1 ++ ljust 26 destination_address ++ ("  ").data))
            else some (ljustDyn width p.1)
        else some (ljustDyn width [])
      else
        if width > (fpColumn env width).2 + 28 ∧
            env.config.show_destination then
          some (ljustDyn width
            ((fpColumn env width).1 ++ ljust 26 destination_address ++
              ("  ").data))
        else some (ljustDyn width (fpColumn env width).1)

/-- `':%s' % self.connection.local_port if self.include_port else ''`. -/
def localPortLabel (env : Env) : Str :=
  if env.include_port then ':' :: natStr env.conn.local_port else []

/-- `controller.get_info('address', self.connection.local_address)`. -/
def myExternalAddress (env : Env) : Str :=
  (env.external_address).getD env.conn.local_address

/-- `controller.get_conf('nickname', 'UNKNOWN')`. -/
def confNickname (env : Env) : Str :=
  (env.conf_nickname).getD (("UNKNOWN").data)

/-- Whether the controller-reported external address differs from the
connection's local address. -/
abbrev addressDiffer (env : Env) : Prop :=
  myExternalAddress env ≠ env.conn.local_address

/-- The IP_ADDRESS-mode source address: the external address for
address-translating categories, otherwise the local one, plus the optional
local port. -/
def ipSrcAddress (env : Env) : Str :=
  (if ¬ appCategory env then myExternalAddress env
   else env.conn.local_address) ++ localPortLabel env

/-- The IP_ADDRESS-mode `(src, dst)` base fields: 21/26-wide padded columns,
pre-swapped for the SOCKS and CONTROL categories (whose destination is
conceptually local). -/
def ipSrcDst (env : Env) (d : Str) : Str × Str :=
  if env.entry_type = SOCKS ∨ env.entry_type = CONTROL then
    (ljust 21 d, ljust 26 (ipSrcAddress env))
  else (ljust 21 (ipSrcAddress env), ljust 26 d)

/-- `used_space` after the IP_ADDRESS-mode base fields. -/
def ipUsed1 (env : Env) (d : Str) : Int :=
  usedSpaceBase + ((ipSrcDst env d).1.length : Int) +
    ((ipSrcDst env d).2.length : Int)

/-- Whether the expanded internal address may be shown: 28 extra characters
must fit, and the fingerprint column has priority unless there is room for
both (shown below the fingerprint threshold or comfortably above both). -/
abbrev ipExpandVisible (env : Env) (width : Int) (d : Str) : Prop :=
  width > ipUsed1 env d + 28 ∧
  (env.config.show_fingerprint →
    (width < ipUsed1 env d + 42 ∨ width > ipUsed1 env d + 70))

/-- Whether the expanded internal address is actually drawn. -/
abbrev ipExpand (env : Env) (width : Int) (d : Str) : Prop :=
  addressDiffer env ∧ ¬ appCategory env ∧ ipExpandVisible env width d ∧
  env.include_expanded_addresses ∧ env.config.show_expanded_ip

/-- `self.connection.local_address + local_port`. -/
def internalAddress (env : Env) : Str :=
  env.conn.local_address ++ localPortLabel env

/-- The IP_ADDRESS-mode src field, with the internal address joined in when
expanded (ordering reversed for inbound connections so the row reads
foreign → external → internal after the later swap). -/
def ipSrc (env : Env) (width : Int) (d : Str) : Str :=
  if ipExpand env width d then
    if env.entry_type = INBOUND then
      ljust 21 (ipSrcDst env d).1 ++ ("  -->  ").data ++ internalAddress env
    else
      ljust 21 (internalAddress env) ++ ("  -->  ").data ++ (ipSrcDst env d).1
  else (ipSrcDst env d).1

/-- `used_space` after the (possibly expanded) IP_ADDRESS-mode src field:
the expansion is accounted as 28 extra characters. -/
def ipUsed2 (env : Env) (width : Int) (d : Str) : Int :=
  if ipExpand env width d then ipUsed1 env d + 28 else ipUsed1 env d

/-- The FINGERPRINT-mode dst field: the 40-padded fingerprint (or
`localhost` for the controller's own connection). -/
def fpModeDst (env : Env) : Str :=
  ljust 40
    (if env.entry_type = CONTROL then ("localhost").data
     else fingerprintStr env)

/-- `base_space = width - used_space` of the NICKNAME-mode branch, after the
etc field has been charged. -/
def nickBase (width : Int) (etc : Str) : Int :=
  width - (usedSpaceBase + (etc.length : Int))

/-- The NICKNAME-mode src field: the locally configured nickname. -/
def nickSrc (env : Env) : Str := confNickname env

/-- The NICKNAME-mode dst field: the remote relay's nickname (the local one
for the controller's own connection). -/
def nickDst (env : Env) : Str :=
  if env.entry_type = CONTROL then confNickname env else nicknameStr env

/-- The `(src, dst, etc, padding)` fields `_get_listing_content` assembles
before the final inbound swap and `LABEL_FORMAT` interpolation.  `none`
models a propagated exception. -/
def listingParts (env : Env) (width : Int) (listing_type : Listing) :
    Option (Str × Str × Str × Str) :=
  if listing_type = IP_ADDRESS then
    match destinationLabel env 26 true with
    | none => none
    | some d =>
      match getEtcContent env (width - ipUsed2 env width d) listing_type with
      | none => none
      | some etc =>
        some (ipSrc env width d, (ipSrcDst env d).2, etc,
          spaces (width - (ipUsed2 env width d + etc.length) + 2))
  else if listing_type = FINGERPRINT then
    match getEtcContent env
        (width - (usedSpaceBase + (((("localhost").data).length : Int) +
          ((fpModeDst env).length : Int)))) listing_type with
    | none => none
    | some etc =>
      some (("localhost").data, fpModeDst env, etc,
        spaces (width - (usedSpaceBase + (((("localhost").data).length : Int) +
          ((fpModeDst env).length : Int)) + etc.length) + 2))
  else
    match getEtcContent env (width - usedSpaceBase - 50) listing_type with
    | none => none
    | some etc =>
      if ((nickSrc env).length + (nickDst env).length : Int) >
          nickBase width etc then
        match crop (nickSrc env) ((nickBase width etc).fdiv 3)
            (some 4) 0 ellipse with
        | none => none
        | some src2 =>
          match crop (nickDst env) (nickBase width etc - src2.length)
              (some 4) 0 ellipse with
          | none => none
          | some dst2 =>
            some (src2, ljustDyn (nickBase width etc - src2.length) dst2,
              etc, spaces (width - width + 2))
      else
        some (nickSrc env,
          ljustDyn (nickBase width etc - (nickSrc env).length) (nickDst env),
          etc, spaces (width - width + 2))

/-- `ConnectionLine._get_listing_content(width, listing_type)`: the composed
`'<src>  -->  <dst>  <etc><padding>'` string, with src and dst swapped for
inbound connections. -/
def listingContent (env : Env) (width : Int) (listing_type : Listing) :
    Option Str :=
  match listingParts env width listing_type with
  | none => none
  | some (src, dst, etc, pad) =>
    if env.entry_type = INBOUND then some (labelFormat dst src etc pad)
    else some (labelFormat src dst etc pad)

/-- The per-entry curses attribute used for the listing row. -/
def lineFmt (env : Env) : Fmt := ⟨CATEGORY_COLOR env.entry_type, false⟩

/-- `ConnectionLine._get_listing_entry(width, listing_type)`: the cached
skeleton — six styled segments with a six-space placeholder in the uptime
slot. -/
def listingEntrySkeleton (env : Env) (width : Int) (listing_type : Listing) :
    Option (List (Str × Fmt)) :=
  match listingContent env (width - 19) listing_type with
  | none => none
  | some content =>
    let f := lineFmt env
    some [([' '], f),
          (content, f),
          (("      ").data, f),
          ((" (").data, f),
          (catUpper env.entry_type, { f with bold := true }),
          (')' :: spaces (9 - (catLabel env.entry_type).length), f)]

/-- The freshly computed uptime label
`('+' if legacy else ' ') + '%5s' % time_label(current_time - start_time, 1)`. -/
def timeLabelOf (env : Env) (current_time : Int) : Str :=
  (if env.conn.is_legacy then ['+'] else [' ']) ++
    rjust 5 (env.time_label (current_time - env.conn.start_time))

/-- `ConnectionLine.get_listing_entry(width, current_time, listing_type)`:
fetch the (cache-shaped) skeleton and splice the current uptime into slot 2. -/
def getListingEntry (env : Env) (width current_time : Int)
    (listing_type : Listing) : Option (List (Str × Fmt)) :=
  match listingEntrySkeleton env width listing_type with
  | none => none
  | some my_listing =>
    match my_listing.get? 2 with
    | none => none
    | some slot2 =>
      some (my_listing.set 2 (timeLabelOf env current_time, slot2.2))

/-- The memoization table of `@lru_cache()` on `_get_listing_entry`, keyed by
`(width, listing_type)`. -/
abbrev ListingCache := List ((Int × Listing) × List (Str × Fmt))

/-- Cache lookup by key. -/
def cacheLookup (c : ListingCache) (k : Int × Listing) :
    Option (List (Str × Fmt)) :=
  (c.find? (fun p => p.1 = k)).map (·.2)

/-- `get_listing_entry` with the memoization step explicit: on a hit the
stored skeleton is reused, on a miss it is computed and stored; either way the
uptime is recomputed and spliced in after the lookup. -/
def getListingEntryCached (env : Env) (c : ListingCache)
    (width current_time : Int) (listing_type : Listing) :
    Option (List (Str × Fmt) × ListingCache) :=
  let skel : Option (List (Str × Fmt) × ListingCache) :=
    match cacheLookup c (width, listing_type) with
    | some v => some (v, c)
    | none =>
      match listingEntrySkeleton env width listing_type with
      | none => none
      | some v => some (v, ((width, listing_type), v) :: c)
  match skel with
  | none => none
  | some (my_listing, c2) =>
    match my_listing.get? 2 with
    | none => none
    | some slot2 =>
      some (my_listing.set 2 (timeLabelOf env current_time, slot2.2), c2)

/-- `', '.join(entries)`. -/
def joinCommaSpace (l : List Str) : Str :=
  match l with
  | [] => []
  | a :: t => a ++ (t.map (fun s => (", ").data ++ s)).flatten

/-- One numbered candidate line
`'%i. or port: %-5s fingerprint: %s' % (i + 1, relay_port, relay_fingerprint)`
of the multiple-match case. -/
def candidateLine (i : Nat) (m : Nat × Str) : Str :=
  natStr (i + 1) ++ (". or port: ").data ++ ljust 5 (natStr m.1) ++
    (" fingerprint: ").data ++ m.2

/-- The line written into slot `3 + i` of the detail page by the
multiple-match loop (`i < 4`; slot untouched — empty — beyond the match
count; at `i = 3` with more than one relay remaining, the `'... N more'`
summary). -/
def multiMatchSlot (ms : List (Nat × Str)) (i : Nat) : Str :=
  if h : i < ms.length then
    if i = 3 ∧ ms.length - i > 1 then
      ("... ").data ++ natStr (ms.length - i) ++ (" more").data
    else candidateLine i (ms.get ⟨i, h⟩)
  else []

/-- `ConnectionLine._get_detail_content(width)`: the seven detail lines,
each cropped to `width - 2` at the end.  `none` models a propagated
exception (the crop of a nonempty line raises once `width - 2` is
negative). -/
def detailContent (env : Env) (width : Int) : Option (List Str) :=
  match destinationLabel env (width - 11) false with
  | none => none
  | some dlabel =>
    let line0 := ("address: ").data ++ dlabel
    let line1 := ("locale: ").data ++
      (if env.entry_is_private then ("??").data
       else getLocale env (("??").data))
    let lines : List Str :=
      match getFingerprint env none with
      | some fingerprint =>
        let line1f := ljust 13 line1 ++ ("fingerprint: ").data ++ fingerprint
        let rse? := env.network_status fingerprint
        let sd? := env.server_descriptor fingerprint
        let line2 :=
          match rse? with
          | some rse =>
            let dir_port_label :=
              match rse.dir_port with
              | some dp =>
                if dp ≠ 0 then ("dirport: ").data ++ natStr dp else []
              | none => []
            ("nickname: ").data ++ ljust 25 rse.nickname ++
              (" orport: ").data ++ ljust 10 (natStr rse.or_port) ++
              (" ").data ++ dir_port_label
          | none => []
        let line3a :=
          match rse? with
          | some rse => ("published: ").data ++ rse.published
          | none => []
        let line4 :=
          match rse? with
          | some rse => ("flags: ").data ++ joinCommaSpace rse.flags
          | none => []
        let line5 :=
          match sd? with
          | some sd =>
            ("exit policy: ").data ++
              ((sd.exit_policy_summary).getD (("unknown").data))
          | none => []
        let line3 :=
          match sd? with
          | some sd =>
            ljust 35 line3a ++ (" os: ").data ++
              ljust 14 sd.operating_system ++ (" version: ").data ++
              sd.tor_version
          | none => line3a
        let line6 :=
          match sd? with
          | some sd =>
            match sd.contact with
            | some c => if c ≠ [] then ("contact: ").data ++ c else []
            | none => []
          | none => []
        [line0, line1f, line2, line3, line4, line5, line6]
      | none =>
        let all_matches :=
          env.all_relay_fingerprints env.conn.remote_address
        if all_matches ≠ [] then
          [line0, line1,
           ("Multiple matches, possible fingerprints are:").data,
           multiMatchSlot all_matches 0, multiMatchSlot all_matches 1,
           multiMatchSlot all_matches 2, multiMatchSlot all_matches 3]
        else
          [line0, line1, ("No consensus data found").data, [], [], [], []]
    lines.mapM (fun l => crop l (width - 2) (some 4) 0 ellipse)

/-- The curses attribute pair `(A_BOLD, category color)` of the detail page. -/
def detailFmt (env : Env) : Fmt := ⟨CATEGORY_COLOR env.entry_type, true⟩

/-- `ConnectionLine.get_details(width)`: the styled detail lines. -/
def getDetails (env : Env) (width : Int) : Option (List (Str × Fmt)) :=
  match detailContent env width with
  | none => none
  | some lines => some (lines.map (fun l => (l, detailFmt env)))

theorem spaces_length (n : Int) : (spaces n).length = n.toNat := by
  simp [spaces]

theorem ljust_length (n : Int) (s : Str) :
    (ljust n s).length = max s.length n.toNat := by
  simp only [ljust, List.length_append, spaces_length]
  omega

theorem ljustDyn_length (w : Int) (s : Str) :
    (ljustDyn w s).length = max s.length w.natAbs := by
  simp only [ljustDyn, ljust_length]
  omega

theorem rjust_length (n : Int) (s : Str) :
    (rjust n s).length = max s.length n.toNat := by
  simp only [rjust, List.length_append, spaces_length]
  omega

theorem pySliceTo_length_le (s : Str) (n : Int) (h : 0 ≤ n) :
    (pySliceTo s n).length ≤ n.toNat := by
  simp only [pySliceTo, if_pos h, List.length_take]
  omega

theorem pySliceTo_of_le (s : Str) (n : Int) (h : (s.length : Int) ≤ n) :
    pySliceTo s n = s := by
  have h0 : 0 ≤ n := le_trans (by positivity) h
  simp only [pySliceTo, if_pos h0]
  exact List.take_of_length_le (by omega)

theorem rstrip_length_le (s : Str) : (rstrip s).length ≤ s.length := by
  have h := (List.dropWhile_sublist (l := s.reverse) pyIsSpace).length_le
  simpa [rstrip] using h

theorem lastIdxOf_lt_length {c : Char} {s : Str} {i : Nat}
    (h : lastIdxOf c s = some i) : i < s.length := by
  induction s generalizing i with
  | nil => simp [lastIdxOf] at h
  | cons a t ih =>
    simp only [lastIdxOf] at h
    cases ht : lastIdxOf c t with
    | some j =>
      rw [ht] at h
      have := ih ht
      simp only [Option.some.injEq] at h
      simp [← h]
      omega
    | none =>
      rw [ht] at h
      by_cases hac : a = c
      · simp [hac] at h
        simp [← h]
      · simp [hac] at h

theorem rfindSpace_lower (s : Str) (stop : Nat) : -1 ≤ rfindSpace s stop := by
  unfold rfindSpace
  cases h : lastIdxOf ' ' (s.take stop) <;> simp <;> omega

theorem rfindSpace_upper (s : Str) (stop : Nat) :
    rfindSpace s stop < (stop : Int) ∨ rfindSpace s stop = -1 := by
  unfold rfindSpace
  cases h : lastIdxOf ' ' (s.take stop) with
  | none => simp
  | some i =>
    left
    have := lastIdxOf_lt_length h
    simp only [List.length_take] at this
    simp
    omega

theorem crop_of_le (msg : Str) (size : Int) (mwl : Option Int) (mc : Int)
    (e : Ending) (h : (msg.length : Int) ≤ size) :
    crop msg size mwl mc e = some msg := by
  unfold crop
  simp [h]

theorem cropBody_nil_of_lt (msg : Str) {size1 mwl : Int} (mc : Int)
    (e : Ending) (h : size1 < mwl) : cropBody msg size1 mwl mc e = some [] := by
  unfold cropBody
  rw [if_pos h]

theorem cropBody_length_le {msg : Str} {size1 mwl mc : Int} {e : Ending}
    {r : Str} (hroom : mwl ≤ size1) (hmwl : 0 ≤ mwl)
    (h : cropBody msg size1 mwl mc e = some r) :
    (r.length : Int) ≤ size1 + (if e = ellipse then 3 else 0) := by
  have hsize1_nonneg : 0 ≤ size1 := le_trans hmwl hroom
  have htk : (msg.take size1.toNat).length ≤ size1.toNat :=
    List.length_take_le _ _
  have hwb_le : (cropWordbreakMsg msg size1).length ≤ size1.toNat := by
    unfold cropWordbreakMsg
    have hub := rfindSpace_upper msg (size1 + 1).toNat
    have hlb := rfindSpace_lower msg (size1 + 1).toNat
    split
    · simp
    · have h1 : (msg.take (rfindSpace msg (size1 + 1).toNat).toNat).length ≤
          (rfindSpace msg (size1 + 1).toNat).toNat := List.length_take_le _ _
      have h2 : ((size1 + 1).toNat : Int) = size1 + 1 := by omega
      omega
  unfold cropBody at h
  rw [if_neg (by omega)] at h
  by_cases hic : cropIncludeWord msg size1 mwl mc
  · rw [if_pos hic] at h
    by_cases hhy : e = hyphen
    · rw [if_pos hhy] at h
      by_cases hemp : msg.take size1.toNat = []
      · rw [if_pos hemp] at h
        cases h
      · rw [if_neg hemp] at h
        cases h
        have h2 := rstrip_length_le
          ((msg.take size1.toNat).take ((msg.take size1.toNat).length - 1))
        have h3 : ((msg.take size1.toNat).take
            ((msg.take size1.toNat).length - 1)).length ≤
            (msg.take size1.toNat).length - 1 := by
          simp [List.length_take]
        have hne2 : (msg.take size1.toNat).length ≠ 0 := by
          simpa [List.length_eq_zero] using hemp
        have hee : ¬ e = ellipse := by
          rw [hhy]
          intro hc
          cases hc
        rw [if_neg hee]
        simp only [List.length_append, List.length_cons, List.length_nil]
        omega
    · rw [if_neg hhy] at h
      by_cases hell : e = Ending.ellipse ∧ msg.take size1.toNat ≠ []
      · rw [if_pos hell] at h
        cases h
        have h2 := rstrip_length_le (msg.take size1.toNat)
        rw [if_pos hell.1]
        simp only [List.length_append, List.length_cons, List.length_nil]
        omega
      · rw [if_neg hell] at h
        cases h
        split <;> omega
  · rw [if_neg hic] at h
    by_cases hell : e = Ending.ellipse ∧ cropWordbreakMsg msg size1 ≠ []
    · rw [if_pos hell] at h
      cases h
      have h2 := rstrip_length_le (cropWordbreakMsg msg size1)
      rw [if_pos hell.1]
      simp only [List.length_append, List.length_cons, List.length_nil]
      omega
    · rw [if_neg hell] at h
      cases h
      split <;> omega

theorem cropEffectiveMwl_nonneg {mwl : Option Int} (e : Ending)
    (h : 0 ≤ mwl.getD 0) : 0 ≤ cropEffectiveMwl mwl e := by
  cases mwl with
  | none => simp [cropEffectiveMwl]
  | some m =>
    simp only [Option.getD_some] at h
    simp only [cropEffectiveMwl]
    split <;> omega

theorem crop_length_le {msg : Str} {size : Int} {mwl : Option Int} {mc : Int}
    {e : Ending} {r : Str} (hs : 0 ≤ size)
    (h : crop msg size mwl mc e = some r) : (r.length : Int) ≤ size := by
  unfold crop at h
  split at h
  · rename_i hle
    cases h
    exact hle
  split at h
  · cases h
  split at h
  · cases h
  split at h
  · cases h
  rename_i hcond hneg hmwl hmc
  have hmwl1_nonneg : 0 ≤ cropEffectiveMwl mwl e :=
    cropEffectiveMwl_nonneg e (by omega)
  by_cases hroom : cropEffectiveSize size e < cropEffectiveMwl mwl e
  · rw [cropBody_nil_of_lt msg mc e hroom] at h
    cases h
    simpa using hs
  · push_neg at hroom
    have hb := cropBody_length_le hroom hmwl1_nonneg h
    unfold cropEffectiveSize at hb
    by_cases he : e = ellipse
    · rw [if_pos he, if_pos he] at hb
      omega
    · rw [if_neg he, if_neg he] at hb
      omega


theorem cropBody_isSome (msg : Str) (size1 mwl mc : Int) (e : Ending)
    (hh : e = hyphen → ¬ (msg.take size1.toNat = [])) :
    (cropBody msg size1 mwl mc e).isSome := by
  unfold cropBody
  split
  · simp
  split
  · split
    · rename_i hhy
      rw [if_neg (hh hhy)]
      simp
    · split <;> simp
  · split <;> simp

theorem crop_isSome (msg : Str) (size : Int) (mwl : Option Int) (mc : Int)
    (e : Ending) (hs : 0 ≤ size) (hmwl : 0 ≤ mwl.getD 0) (hmc : 0 ≤ mc)
    (hhy : e = hyphen → 1 ≤ mwl.getD 0) :
    (crop msg size mwl mc e).isSome := by
  unfold crop
  split
  · simp
  rename_i hgt
  rw [if_neg (by omega), if_neg (by omega), if_neg (by omega)]
  by_cases hlt : cropEffectiveSize size e < cropEffectiveMwl mwl e
  · rw [cropBody_nil_of_lt msg mc e hlt]
    simp
  · push_neg at hlt
    apply cropBody_isSome
    intro hhy2
    have h1 := hhy hhy2
    have hm2 : 2 ≤ cropEffectiveMwl mwl e := by
      cases mwl with
      | none => simp at h1
      | some m =>
        simp only [Option.getD_some] at h1
        simp only [cropEffectiveMwl]
        rw [if_pos ⟨by omega, hhy2⟩]
        omega
    have hsz : cropEffectiveSize size e = size := by
      unfold cropEffectiveSize
      rw [if_neg]
      rw [hhy2]
      intro hc
      cases hc
    intro hemp
    have hlen : msg.length ≠ 0 := by
      intro h0
      exact hgt (by simp [h0, hs])
    rcases List.take_eq_nil_iff.mp hemp with h2 | h2
    · omega
    · exact hlen (by simp [h2])

/-- The printable length of a styled row: total length of its text segments. -/
def printableLen (l : List (Str × Fmt)) : Nat := (l.map (fun p => p.1.length)).sum

/-- Decidable prefix test. -/
def strStartsWith (s pat : Str) : Bool := s.take pat.length = pat

/-- Whether the IP_ADDRESS-mode branch of `get_etc_content` draws the
nickname column at a given width (after the fingerprint column has taken its
42 characters when drawn). -/
abbrev ipNickIncluded (env : Env) (width : Int) : Prop :=
  width > (fpColumn env width).2 + 10 ∧ env.config.show_nickname

/-- A typical outbound connection snapshot used as concrete test data. -/
def conn0 : Connection :=
  { local_address := ("127.0.0.1").data, local_port := 9051,
    remote_address := ("86.59.21.38").data, remote_port := 443,
    start_time := 1000, is_legacy := false }

/-- All display toggles on (the defaults of `conn_entry.py`). -/
def config0 : Config :=
  { show_ips := true, show_exit_port := true, show_fingerprint := true,
    show_nickname := true, show_destination := true, show_expanded_ip := true }

/-- A concrete environment: an outbound connection, nothing resolved. -/
def env0 : Env :=
  { conn := conn0, entry_type := OUTBOUND, entry_is_private := false,
    include_port := true, include_expanded_addresses := true,
    config := config0,
    external_address := none,
    conf_nickname := some (("mynick").data),
    relay_fingerprint := fun _ _ => none,
    relay_nickname := fun _ => none,
    all_relay_fingerprints := fun _ => [],
    port_usage_fetch := fun _ => ProcessResult.unknown,
    port_usage := fun _ => none,
    is_private_address := fun _ => false,
    is_geoip_unavailable := true,
    locale := fun _ => none,
    network_status := fun _ => none,
    server_descriptor := fun _ => none,
    time_label := fun _ => ("1m").data }

/-- An inbound connection whose external address differs from the local one,
triggering the expanded-address field. -/
def envExpIn : Env :=
  { env0 with
    entry_type := INBOUND,
    external_address := some (("86.59.21.99").data) }

/-- The connection of an exit line towards a BitTorrent port. -/
def connExit : Connection :=
  { conn0 with
    remote_address := ("1.2.3.4").data,
    remote_port := 6881 }

/-- An exit connection whose remote port's looked-up purpose is BitTorrent. -/
def envExit : Env :=
  { env0 with
    entry_type := EXIT,
    conn := connExit,
    port_usage := fun p => if p = 6881 then some (("BitTorrent").data) else none }

/-- A forty-character fingerprint of test data. -/
def fpA : Str := List.replicate 40 'A'

/-- An outbound connection whose remote endpoint resolves to a relay. -/
def envFp : Env :=
  { env0 with
    relay_fingerprint := fun _ _ => some fpA,
    relay_nickname := fun f => if f = some fpA then some (("moria1").data) else none }

/-- `envFp` with the fingerprint column toggled off. -/
def envFpOff : Env :=
  { envFp with
    config := { config0 with show_fingerprint := false } }

/-- `envFp` reclassified as inbound. -/
def envFpIn : Env :=
  { envFp with
    entry_type := INBOUND }

/-- A SOCKS connection whose port resolves to a process with a pid. -/
def envSocks : Env :=
  { env0 with
    entry_type := SOCKS,
    port_usage_fetch := fun p =>
      if p = 443 then ProcessResult.resolved (("firefox").data) (some 1234)
      else ProcessResult.unknown }

/-- Six consensus candidates sharing one address. -/
def ms6 : List (Nat × Str) :=
  [(443, ("F1F1").data), (9001, ("F2F2").data), (80, ("F3F3").data),
   (9030, ("F4F4").data), (8080, ("F5F5").data), (22, ("F6F6").data)]

/-- An inbound connection with no resolved fingerprint but six consensus
candidates for its address. -/
def envMulti : Env :=
  { env0 with
    entry_type := INBOUND,
    all_relay_fingerprints := fun _ => ms6 }

/-- A private entry. -/
def envPriv : Env :=
  { env0 with
    entry_is_private := true }

theorem destinationLabel_eq_slice (env : Env) (m : Int) (il : Bool) :
    ∃ x, destinationLabel env m il = some (pySliceTo x m) := by
  unfold destinationLabel
  split
  · rename_i hfit
    split
    · cases hpo : pyOr (env.port_usage env.conn.remote_port) none with
      | none => exact ⟨_, rfl⟩
      | some purpose0 =>
        have hcs := crop_isSome (exitPurpose1 env purpose0 m)
          (destSpace env m) (some 4) 0 hyphen
          (by unfold destSpace; omega) (by simp) (by omega) (by simp)
        obtain ⟨p2, hp2⟩ := Option.isSome_iff_exists.mp hcs
        dsimp only []
        rw [hp2]
        exact ⟨_, rfl⟩
    · split
      · split
        · exact ⟨_, rfl⟩
        · exact ⟨_, rfl⟩
      · exact ⟨_, rfl⟩
  · exact ⟨_, rfl⟩

theorem destinationLabel_isSome (env : Env) (m : Int) (il : Bool) :
    (destinationLabel env m il).isSome := by
  obtain ⟨x, hx⟩ := destinationLabel_eq_slice env m il
  rw [hx]
  rfl

theorem destinationLabel_length_le (env : Env) (m : Int) (il : Bool)
    (h0 : 0 ≤ m) {l : Str} (h : destinationLabel env m il = some l) :
    (l.length : Int) ≤ m := by
  obtain ⟨x, hx⟩ := destinationLabel_eq_slice env m il
  rw [hx] at h
  cases h
  have := pySliceTo_length_le x m h0
  omega

theorem ljust_length_exact {s : Str} {n : Int} (h : (s.length : Int) ≤ n) :
    ((ljust n s).length : Int) = n := by
  rw [ljust_length]
  omega

theorem ljustDyn_length_exact {s : Str} {w : Int} (h0 : 0 ≤ w)
    (h : (s.length : Int) ≤ w) : ((ljustDyn w s).length : Int) = w := by
  rw [ljustDyn_length]
  omega

theorem ljustDyn_length_of_ge {s : Str} {w : Int} (h0 : 0 ≤ w)
    (h : w ≤ (s.length : Int)) : (ljustDyn w s).length = s.length := by
  rw [ljustDyn_length]
  omega

theorem fpColumn_spec (env : Env) (width : Int)
    (hfp : (fingerprintStr env).length ≤ 40) :
    ((fpColumn env width).1.length : Int) = (fpColumn env width).2 ∧
    ((fpColumn env width).2 = 0 ∨
      ((fpColumn env width).2 = 42 ∧ width > 42)) := by
  unfold fpColumn
  split
  · rename_i hcond
    constructor
    · simp only [List.length_append]
      rw [ljust_length]
      simp
      omega
    · right
      exact ⟨rfl, by omega⟩
  · simp

theorem getEtcContent_length (env : Env) (width : Int) (lt : Listing)
    (happ : ¬ appCategory env) (hw : 0 ≤ width)
    (hfp : (fingerprintStr env).length ≤ 40) :
    ∃ s, getEtcContent env width lt = some s ∧
      (s.length : Int) = width +
        (if lt = IP_ADDRESS ∧ ipNickIncluded env width then 2 else 0) := by
  obtain ⟨fpc1, fpc2⟩ := fpColumn_spec env width hfp
  obtain ⟨x, hd⟩ := destinationLabel_eq_slice env 26 true
  have hdlen : ((pySliceTo x 26).length : Int) ≤ 26 := by
    have := pySliceTo_length_le x 26 (by omega)
    omega
  have hfpc0 : 0 ≤ (fpColumn env width).2 := by omega
  have hsp2 : (("  ").data) = ' ' :: ' ' :: [] := rfl
  unfold getEtcContent
  rw [if_neg happ, hd]
  dsimp only []
  cases lt with
  | IP_ADDRESS =>
    rw [if_pos rfl]
    by_cases hn : width > (fpColumn env width).2 + 10 ∧
        env.config.show_nickname
    · rw [if_pos hn]
      have hsz : (0 : Int) ≤ width - (fpColumn env width).2 := by omega
      have hcs := crop_isSome (nicknameStr env)
        (width - (fpColumn env width).2) (some 0) 0 ellipse hsz (by simp)
        (by omega) (by simp)
      obtain ⟨lbl, hlbl⟩ := Option.isSome_iff_exists.mp hcs
      rw [hlbl]
      refine ⟨_, rfl, ?_⟩
      have hlblen := crop_length_le hsz hlbl
      have hinner : ((ljustDyn (width - (fpColumn env width).2) lbl).length :
          Int) = width - (fpColumn env width).2 :=
        ljustDyn_length_exact hsz hlblen
      have hinlen : (((fpColumn env width).1 ++
          ljustDyn (width - (fpColumn env width).2) lbl ++
          ("  ").data).length : Int) = width + 2 := by
        simp only [hsp2, List.length_append, List.length_cons,
          List.length_nil]
        push_cast
        omega
      have hge := ljustDyn_length_of_ge hw (s := (fpColumn env width).1 ++
        ljustDyn (width - (fpColumn env width).2) lbl ++ ("  ").data)
        (by omega)
      rw [if_pos ⟨rfl, hn⟩, hge]
      omega
    · rw [if_neg hn]
      refine ⟨_, rfl, ?_⟩
      rw [if_neg (fun hc => hn hc.2)]
      rcases fpc2 with h0 | ⟨h42, hgt⟩
      · rw [ljustDyn_length_exact hw (by omega)]
        omega
      · rw [ljustDyn_length_exact hw (by omega)]
        omega
  | FINGERPRINT =>
    rw [if_neg (by simp), if_pos rfl]
    have hcnd : ¬ (FINGERPRINT = IP_ADDRESS ∧ ipNickIncluded env width) := by
      simp
    rw [if_neg hcnd]
    by_cases h17 : width > 0 + 17
    · rw [if_pos h17]
      have hns : (15 : Int) ≤ fpModeNickSpace env width := by
        unfold fpModeNickSpace
        split
        · rename_i hl
          unfold fpModeLocaleIncluded at hl
          omega
        · omega
      by_cases hnick : env.config.show_nickname
      · rw [if_pos hnick]
        have hcs := crop_isSome (nicknameStr env)
          (fpModeNickSpace env width) (some 0) 0 ellipse (by omega)
          (by simp) (by omega) (by simp)
        obtain ⟨lbl, hlbl⟩ := Option.isSome_iff_exists.mp hcs
        rw [hlbl]
        have hlblen := crop_length_le (by omega : (0:Int) ≤ _) hlbl
        have hinner : ((ljustDyn (fpModeNickSpace env width) lbl).length :
            Int) = fpModeNickSpace env width :=
          ljustDyn_length_exact (by omega) hlblen
        dsimp only []
        by_cases hloc : fpModeLocaleIncluded env width
        · rw [if_pos hloc]
          have hns30 : fpModeNickSpace env width = width - 30 := by
            unfold fpModeNickSpace
            rw [if_pos hloc]
            omega
          refine ⟨_, rfl, ?_⟩
          rw [ljustDyn_length_exact hw (by
            simp only [hsp2, List.length_append, List.length_cons,
              List.length_nil]
            push_cast
            rw [ljust_length_exact hdlen] at *
            omega)]
          omega
        · rw [if_neg hloc]
          have hns2 : fpModeNickSpace env width = width - 2 := by
            unfold fpModeNickSpace
            rw [if_neg hloc]
            omega
          refine ⟨_, rfl, ?_⟩
          rw [ljustDyn_length_exact hw (by
            simp only [hsp2, List.length_append, List.length_cons,
              List.length_nil]
            push_cast
            omega)]
          omega
      · rw [if_neg hnick]
        dsimp only []
        by_cases hloc : fpModeLocaleIncluded env width
        · rw [if_pos hloc]
          have h45 : width > 45 := by
            unfold fpModeLocaleIncluded at hloc
            omega
          refine ⟨_, rfl, ?_⟩
          rw [ljustDyn_length_exact hw (by
            simp only [hsp2, List.nil_append, List.length_append,
              List.length_cons, List.length_nil]
            push_cast
            have h26 := ljust_length_exact hdlen
            omega)]
          omega
        · rw [if_neg hloc]
          refine ⟨_, rfl, ?_⟩
          rw [ljustDyn_length_exact hw (by simpa using hw)]
          omega
    · rw [if_neg h17]
      refine ⟨_, rfl, ?_⟩
      rw [ljustDyn_length_exact hw (by simpa using hw)]
      omega
  | NICKNAME =>
    rw [if_neg (by simp), if_neg (by simp)]
    have hcnd : ¬ (NICKNAME = IP_ADDRESS ∧ ipNickIncluded env width) := by
      simp
    rw [if_neg hcnd]
    by_cases hdc : width > (fpColumn env width).2 + 28 ∧
        env.config.show_destination
    · rw [if_pos hdc]
      refine ⟨_, rfl, ?_⟩
      rw [ljustDyn_length_exact hw (by
        simp only [hsp2, List.length_append, List.length_cons,
          List.length_nil]
        push_cast
        have h26 := ljust_length_exact hdlen
        omega)]
      omega
    · rw [if_neg hdc]
      refine ⟨_, rfl, ?_⟩
      rcases fpc2 with h0 | ⟨h42, hgt⟩
      · rw [ljustDyn_length_exact hw (by omega)]
        omega
      · rw [ljustDyn_length_exact hw (by omega)]
        omega

theorem getEtcContent_app_length (env : Env) (width : Int) (lt : Listing)
    (happ : appCategory env) (hw : 0 ≤ width) :
    ∃ s, getEtcContent env width lt = some s ∧
      ((s.length : Int) = width ∨ s.length = 0) := by
  unfold getEtcContent
  rw [if_pos happ]
  split
  · rename_i hfit
    refine ⟨_, rfl, Or.inl ?_⟩
    exact ljustDyn_length_exact hw (by omega)
  · exact ⟨_, rfl, Or.inr rfl⟩

theorem catLabel_length_le (c : Category) : (catLabel c).length ≤ 9 := by
  cases c <;> decide

theorem ipExpand_not (env : Env) (width : Int) (d : Str)
    (hexp : env.config.show_expanded_ip = false) :
    ¬ ipExpand env width d := by
  intro h
  have := h.2.2.2.2
  rw [hexp] at this
  cases this

theorem listingParts_length (env : Env) (width : Int) (lt : Listing)
    (hw : 63 ≤ width)
    (hexp : env.config.show_expanded_ip = false)
    (hsrc : ((myExternalAddress env ++ localPortLabel env).length : Int) ≤ 21)
    (hloc : ((env.conn.local_address ++ localPortLabel env).length : Int) ≤ 21)
    (hfp : (fingerprintStr env).length ≤ 40) :
    ∃ src dst etc pad, listingParts env width lt = some (src, dst, etc, pad) ∧
      ((src.length : Int) + dst.length + etc.length + pad.length =
        width - 9) := by
  have hsa : ((ipSrcAddress env).length : Int) ≤ 21 := by
    unfold ipSrcAddress
    split <;> omega
  cases lt with
  | IP_ADDRESS =>
    obtain ⟨x, hd⟩ := destinationLabel_eq_slice env 26 true
    have hdlen : ((pySliceTo x 26).length : Int) ≤ 26 := by
      have := pySliceTo_length_le x 26 (by omega)
      omega
    have hsd1 : (21 : Int) ≤ ((ipSrcDst env (pySliceTo x 26)).1.length : Int) ∧
        ((ipSrcDst env (pySliceTo x 26)).1.length : Int) ≤ 26 := by
      unfold ipSrcDst
      split
      · constructor
        · rw [ljust_length]
          push_cast
          omega
        · rw [ljust_length]
          push_cast
          omega
      · rw [ljust_length]
        constructor
        · push_cast
          omega
        · push_cast
          omega
    have hsd2 : ((ipSrcDst env (pySliceTo x 26)).2.length : Int) = 26 := by
      unfold ipSrcDst
      split
      · exact ljust_length_exact (by omega)
      · exact ljust_length_exact (by omega)
    have hu1 : ipUsed1 env (pySliceTo x 26) =
        11 + ((ipSrcDst env (pySliceTo x 26)).1.length : Int) + 26 := by
      unfold ipUsed1
      have : usedSpaceBase = 11 := by decide
      omega
    have hnx := ipExpand_not env width (pySliceTo x 26) hexp
    have hu2 : ipUsed2 env width (pySliceTo x 26) =
        ipUsed1 env (pySliceTo x 26) := by
      unfold ipUsed2
      rw [if_neg hnx]
    have hsrcno : ipSrc env width (pySliceTo x 26) =
        (ipSrcDst env (pySliceTo x 26)).1 := by
      unfold ipSrc
      rw [if_neg hnx]
    have hargnn : (0 : Int) ≤ width - ipUsed2 env width (pySliceTo x 26) := by
      omega
    unfold listingParts
    rw [if_pos rfl, hd]
    dsimp only []
    by_cases happ : appCategory env
    · obtain ⟨etc, hetc, hlen⟩ := getEtcContent_app_length env
        (width - ipUsed2 env width (pySliceTo x 26)) IP_ADDRESS happ hargnn
      rw [hetc]
      refine ⟨_, _, _, _, rfl, ?_⟩
      rw [hsrcno, hsd2]
      rw [spaces_length]
      rcases hlen with h | h
      · push_cast
        omega
      · push_cast
        omega
    · obtain ⟨etc, hetc, hlen⟩ := getEtcContent_length env
        (width - ipUsed2 env width (pySliceTo x 26)) IP_ADDRESS happ hargnn hfp
      rw [hetc]
      refine ⟨_, _, _, _, rfl, ?_⟩
      rw [hsrcno, hsd2]
      rw [spaces_length]
      split at hlen
      · push_cast
        omega
      · push_cast
        omega
  | FINGERPRINT =>
    have hdst : ((fpModeDst env).length : Int) = 40 := by
      unfold fpModeDst
      split
      · exact ljust_length_exact (by decide)
      · exact ljust_length_exact (by omega)
    have husb : usedSpaceBase = 11 := by decide
    have hll : ((("localhost").data).length : Int) = 9 := by decide
    have hargnn : (0 : Int) ≤ width - (usedSpaceBase +
        (((("localhost").data).length : Int) +
          ((fpModeDst env).length : Int))) := by
      omega
    unfold listingParts
    rw [if_neg (by simp), if_pos rfl]
    by_cases happ : appCategory env
    · obtain ⟨etc, hetc, hlen⟩ := getEtcContent_app_length env _ FINGERPRINT
        happ hargnn
      rw [hetc]
      refine ⟨_, _, _, _, rfl, ?_⟩
      rw [spaces_length]
      simp only [List.length_cons, List.length_nil] at *
      rcases hlen with h | h
      · push_cast
        omega
      · push_cast
        omega
    · obtain ⟨etc, hetc, hlen⟩ := getEtcContent_length env _ FINGERPRINT
        happ hargnn hfp
      rw [hetc]
      refine ⟨_, _, _, _, rfl, ?_⟩
      rw [spaces_length]
      rw [if_neg (by simp)] at hlen
      simp only [List.length_cons, List.length_nil] at *
      push_cast
      omega
  | NICKNAME =>
    have husb : usedSpaceBase = 11 := by decide
    have hargnn : (0 : Int) ≤ width - usedSpaceBase - 50 := by omega
    have hetcfact : ∃ etc, getEtcContent env (width - usedSpaceBase - 50)
        NICKNAME = some etc ∧ ((etc.length : Int) = width - 61 ∨
          etc.length = 0) := by
      by_cases happ : appCategory env
      · obtain ⟨etc, hetc, hlen⟩ := getEtcContent_app_length env _ NICKNAME
          happ hargnn
        refine ⟨etc, hetc, ?_⟩
        rcases hlen with h | h
        · left
          omega
        · right
          exact h
      · obtain ⟨etc, hetc, hlen⟩ := getEtcContent_length env _ NICKNAME
          happ hargnn hfp
        refine ⟨etc, hetc, Or.inl ?_⟩
        rw [if_neg (by simp)] at hlen
        omega
    obtain ⟨etc, hetc, hlen⟩ := hetcfact
    have hbase : (39 : Int) ≤ nickBase width etc ∧
        nickBase width etc ≤ width - 11 := by
      unfold nickBase
      omega
    unfold listingParts
    rw [if_neg (by simp), if_neg (by simp), hetc]
    dsimp only []
    split
    · -- combined src/dst too long: crop both
      rename_i hover
      have hfd : (nickBase width etc).fdiv 3 = nickBase width etc / 3 :=
        Int.fdiv_eq_ediv _ (by omega)
      have hdiv : (0 : Int) ≤ (nickBase width etc).fdiv 3 ∧
          (nickBase width etc).fdiv 3 ≤ nickBase width etc := by
        rw [hfd]
        omega
      have hcs1 := crop_isSome (nickSrc env) ((nickBase width etc).fdiv 3)
        (some 4) 0 ellipse (by omega) (by simp) (by omega) (by simp)
      obtain ⟨src2, hsrc2⟩ := Option.isSome_iff_exists.mp hcs1
      rw [hsrc2]
      dsimp only []
      have hsrc2len := crop_length_le (by omega : (0:Int) ≤ _) hsrc2
      have hcs2 := crop_isSome (nickDst env)
        (nickBase width etc - src2.length) (some 4) 0 ellipse (by omega)
        (by simp) (by omega) (by simp)
      obtain ⟨dst2, hdst2⟩ := Option.isSome_iff_exists.mp hcs2
      rw [hdst2]
      dsimp only []
      have hdst2len := crop_length_le (by omega : (0:Int) ≤ _) hdst2
      refine ⟨_, _, _, _, rfl, ?_⟩
      rw [spaces_length]
      have hd3 := ljustDyn_length_exact
        (w := nickBase width etc - src2.length) (by omega) hdst2len
      unfold nickBase at *
      push_cast at *
      omega
    · rename_i hfit
      push_neg at hfit
      refine ⟨_, _, _, _, rfl, ?_⟩
      rw [spaces_length]
      have hd3 := ljustDyn_length_exact (s := nickDst env)
        (w := nickBase width etc - (nickSrc env).length) (by
          unfold nickBase at *
          omega) (by omega)
      unfold nickBase at *
      push_cast at *
      omega

theorem listingContent_length (env : Env) (width : Int) (lt : Listing)
    (hw : 63 ≤ width)
    (hexp : env.config.show_expanded_ip = false)
    (hsrc : ((myExternalAddress env ++ localPortLabel env).length : Int) ≤ 21)
    (hloc : ((env.conn.local_address ++ localPortLabel env).length : Int) ≤ 21)
    (hfp : (fingerprintStr env).length ≤ 40) :
    ∃ s, listingContent env width lt = some s ∧ (s.length : Int) = width := by
  obtain ⟨src, dst, etc, pad, hp, hlen⟩ :=
    listingParts_length env width lt hw hexp hsrc hloc hfp
  unfold listingContent
  rw [hp]
  dsimp only []
  have hlf : ∀ a b : Str, ((labelFormat a b etc pad).length : Int) =
      (a.length : Int) + b.length + etc.length + pad.length + 9 := by
    intro a b
    unfold labelFormat
    simp only [List.length_append]
    have h7 : ((("  -->  ").data).length : Int) = 7 := by decide
    have h2 : ((("  ").data).length : Int) = 2 := by decide
    push_cast
    push_cast at h7 h2
    omega
  split
  · refine ⟨_, rfl, ?_⟩
    rw [hlf]
    omega
  · refine ⟨_, rfl, ?_⟩
    rw [hlf]
    omega

theorem timeLabelOf_length (env : Env) (t : Int)
    (htl : (env.time_label (t - env.conn.start_time)).length ≤ 5) :
    (timeLabelOf env t).length = 6 := by
  unfold timeLabelOf
  rw [List.length_append, rjust_length]
  split <;> simp <;> omega

theorem getListingEntry_length (env : Env) (width t : Int) (lt : Listing)
    (hw : 82 ≤ width)
    (hexp : env.config.show_expanded_ip = false)
    (hsrc : ((myExternalAddress env ++ localPortLabel env).length : Int) ≤ 21)
    (hloc : ((env.conn.local_address ++ localPortLabel env).length : Int) ≤ 21)
    (hfp : (fingerprintStr env).length ≤ 40)
    (htl : (env.time_label (t - env.conn.start_time)).length ≤ 5) :
    ∃ l, getListingEntry env width t lt = some l ∧
      (printableLen l : Int) = width := by
  obtain ⟨s, hs, hslen⟩ := listingContent_length env (width - 19) lt
    (by omega) hexp hsrc hloc hfp
  unfold getListingEntry listingEntrySkeleton
  rw [hs]
  dsimp only []
  refine ⟨_, rfl, ?_⟩
  have hcat := catLabel_length_le env.entry_type
  have hupper : (catUpper env.entry_type).length =
      (catLabel env.entry_type).length := by
    unfold catUpper
    exact List.length_map _ _
  have htl6 := timeLabelOf_length env t htl
  simp only [printableLen, List.set, List.map, List.sum_cons, List.sum_nil,
    List.length_cons, spaces_length, hupper, htl6]
  push_cast
  simp only [List.length_cons, List.length_nil]
  push_cast
  omega

/-- `config0` with the expanded-address column disabled. -/
def configNoExp : Config :=
  { config0 with show_expanded_ip := false }

/-- `env0` with the expanded-address column disabled. -/
def envNoExp : Env :=
  { env0 with config := configNoExp }

/-- C1 counterexample: for the inbound connection `envExpIn` (whose external
address differs from its local address, so the expanded internal address is
drawn) the listing row at width 114 has printable length 107, not 114 — the
expansion is charged as 28 characters but the unpadded internal address
contributes only 7 + 14 of them.  The claimed exact-width invariant also
fails at any width too small for the base fields. -/
theorem C1_counterexample :
    (getListingEntry envExpIn 114 0 IP_ADDRESS).map printableLen =
      some 107 ∧ (107 : Nat) ≠ 114 := by
  constructor
  · decide
  · decide

/-- C1 (amended): for every width of at least 82, every listing mode and
every connection, the listing row of `get_listing_entry` has printable length
exactly equal to the requested width, provided the expanded-address column is
disabled and the external data is well-formed (addresses with port fit their
21-character field, fingerprints are at most 40 characters, the uptime label
at most 5). -/
theorem C1_row_length_exact (env : Env) (width t : Int) (lt : Listing)
    (hw : 82 ≤ width)
    (hexp : env.config.show_expanded_ip = false)
    (hsrc : ((myExternalAddress env ++ localPortLabel env).length : Int) ≤ 21)
    (hloc : ((env.conn.local_address ++ localPortLabel env).length : Int) ≤ 21)
    (hfp : (fingerprintStr env).length ≤ 40)
    (htl : (env.time_label (t - env.conn.start_time)).length ≤ 5) :
    ∃ l, getListingEntry env width t lt = some l ∧
      (printableLen l : Int) = width :=
  getListingEntry_length env width t lt hw hexp hsrc hloc hfp htl

/-- Witness for C1 at a concrete environment and width. -/
theorem C1_row_length_exact_witness :
    ∃ l, getListingEntry envNoExp 100 2000 IP_ADDRESS = some l ∧
      (printableLen l : Int) = 100 :=
  C1_row_length_exact envNoExp 100 2000 IP_ADDRESS (by decide) (by decide)
    (by decide) (by decide) (by decide) (by decide)

/-- C2 counterexample: in IP_ADDRESS mode with the nickname column included,
`get_etc_content` at width 11 returns a string of length 13, not 11 — the
nickname column consumes all remaining width and its two-character separator
overflows the requested budget. -/
theorem C2_counterexample :
    (getEtcContent env0 11 IP_ADDRESS).map List.length = some 13 ∧
    (13 : Nat) ≠ 11 := by
  constructor
  · decide
  · decide

/-- C2 (amended): for non-application categories, nonnegative widths and
fingerprints of at most 40 characters, `get_etc_content` returns a string of
length exactly the requested width — except in IP_ADDRESS mode when the
nickname column is included, where the length is width + 2 (the overflow is
later absorbed by the row's minimum padding). -/
theorem C2_etc_exact_budget (env : Env) (width : Int) (lt : Listing)
    (happ : ¬ appCategory env) (hw : 0 ≤ width)
    (hfp : (fingerprintStr env).length ≤ 40) :
    ∃ s, getEtcContent env width lt = some s ∧
      (s.length : Int) = width +
        (if lt = IP_ADDRESS ∧ ipNickIncluded env width then 2 else 0) :=
  getEtcContent_length env width lt happ hw hfp

/-- Witness for C2 at a concrete environment and width. -/
theorem C2_etc_exact_budget_witness :
    ∃ s, getEtcContent env0 45 IP_ADDRESS = some s ∧
      (s.length : Int) = 45 +
        (if IP_ADDRESS = IP_ADDRESS ∧ ipNickIncluded env0 45 then 2
         else 0) :=
  C2_etc_exact_budget env0 45 IP_ADDRESS (by decide) (by decide) (by decide)

theorem destinationLabel_congr (env env2 : Env) (m : Int) (il : Bool)
    (hconn : env2.conn = env.conn)
    (htype : env2.entry_type = env.entry_type)
    (hpriv : env2.entry_is_private = env.entry_is_private)
    (hip : env2.include_port = env.include_port)
    (hsep : env2.config.show_exit_port = env.config.show_exit_port)
    (hpu : env2.port_usage = env.port_usage)
    (hpa : env2.is_private_address = env.is_private_address)
    (hgeo : env2.is_geoip_unavailable = env.is_geoip_unavailable)
    (hlocale : env2.locale = env.locale) :
    destinationLabel env2 m il = destinationLabel env m il := by
  simp only [destinationLabel, destAddress, destIncludePort, destSpace,
    exitPurpose1, getLocale, hconn, htype, hpriv, hip, hsep, hpu, hpa, hgeo,
    hlocale]

theorem nicknameStr_congr (env env2 : Env)
    (hconn : env2.conn = env.conn)
    (htype : env2.entry_type = env.entry_type)
    (hrf : env2.relay_fingerprint = env.relay_fingerprint)
    (hrn : env2.relay_nickname = env.relay_nickname) :
    nicknameStr env2 = nicknameStr env := by
  unfold nicknameStr getNickname getFingerprint pyOr
  simp only [hconn, htype, hrf, hrn]

theorem getEtcContent_congr (env env2 : Env) (width : Int) (lt : Listing)
    (hconn : env2.conn = env.conn)
    (htype : env2.entry_type = env.entry_type)
    (hpriv : env2.entry_is_private = env.entry_is_private)
    (hip : env2.include_port = env.include_port)
    (hsep : env2.config.show_exit_port = env.config.show_exit_port)
    (hsn : env2.config.show_nickname = env.config.show_nickname)
    (hsd : env2.config.show_destination = env.config.show_destination)
    (hpu : env2.port_usage = env.port_usage)
    (hpf : env2.port_usage_fetch = env.port_usage_fetch)
    (hpa : env2.is_private_address = env.is_private_address)
    (hgeo : env2.is_geoip_unavailable = env.is_geoip_unavailable)
    (hlocale : env2.locale = env.locale)
    (hfpc : fpColumn env2 width = fpColumn env width)
    (hnick : nicknameStr env2 = nicknameStr env) :
    getEtcContent env2 width lt = getEtcContent env width lt := by
  have hdl := destinationLabel_congr env env2 26 true hconn htype hpriv hip
    hsep hpu hpa hgeo hlocale
  have hfms : fpModeNickSpace env2 width = fpModeNickSpace env width := by
    unfold fpModeNickSpace fpModeLocaleIncluded
    rw [hsd]
  have hfml : fpModeLocaleIncluded env2 width ↔
      fpModeLocaleIncluded env width := by
    unfold fpModeLocaleIncluded
    rw [hsd]
  have happc : appCategory env2 ↔ appCategory env := by
    unfold appCategory
    rw [htype]
  have happort : appPort env2 = appPort env := by
    unfold appPort
    rw [htype, hconn]
  have happl : ∀ p, appDisplayLabel env2 p = appDisplayLabel env p := by
    intro p
    unfold appDisplayLabel
    rw [hpf]
  unfold getEtcContent
  simp only [hdl, hfms, hfml, happc, happort, happl, hfpc, hnick, hsn, hsd]

/-- C3 counterexample: at remaining width exactly `used_space + 42` (here 42)
with the fingerprint toggle on, the fingerprint column is NOT included — the
inclusion test is strict (`width > used_space + 42`).  The output coincides
with the toggle-off output and its first 42 characters are not the
fingerprint field. -/
theorem C3_counterexample :
    getEtcContent envFp 42 IP_ADDRESS = getEtcContent envFpOff 42 IP_ADDRESS ∧
    (getEtcContent envFp 42 IP_ADDRESS).map (List.take 42) ≠
      some (ljust 40 fpA ++ ("  ").data) := by
  constructor
  · decide
  · decide

/-- C3 (amended): in `get_etc_content` (IP_ADDRESS and NICKNAME modes,
non-application categories), the fingerprint column is included iff the
remaining width strictly exceeds `used_space + 42` and the toggle is on: at
widths `used_space + 41` and `used_space + 42` it is excluded regardless of
the toggle (the output does not depend on it); at `used_space + 43` with the
toggle on the first 42 characters are exactly the 40-wide left-justified
fingerprint plus a 2-character separator, and with the toggle off the output
does not depend on the fingerprint lookup (as long as the nickname lookup is
unchanged). -/
theorem ljustDyn_take_prefix (s : Str) (w : Int) (n : Nat)
    (h : s.length = n) : (ljustDyn w s).take n = s := by
  show ((s ++ spaces ((w.natAbs : Int) - s.length)).take n) = s
  exact List.take_left' h

theorem C3_fingerprint_boundary (env : Env) (lt : Listing)
    (hlt : lt = IP_ADDRESS ∨ lt = NICKNAME)
    (happ : ¬ appCategory env)
    (hfp : (fingerprintStr env).length ≤ 40) :
    (∀ b : Bool, ∀ w : Int, w = 41 ∨ w = 42 →
      getEtcContent
        { env with config := { env.config with show_fingerprint := b } }
        w lt = getEtcContent env w lt) ∧
    (env.config.show_fingerprint = true →
      ∀ s, getEtcContent env 43 lt = some s →
        s.take 42 = ljust 40 (fingerprintStr env) ++ ("  ").data) ∧
    (env.config.show_fingerprint = false →
      ∀ f3, nicknameStr { env with relay_fingerprint := f3 } =
          nicknameStr env →
        getEtcContent { env with relay_fingerprint := f3 } 43 lt =
          getEtcContent env 43 lt) := by
  refine ⟨?_, ?_, ?_⟩
  · intro b w hww
    apply getEtcContent_congr env
      { env with config := { env.config with show_fingerprint := b } } w lt
      rfl rfl rfl rfl rfl rfl rfl rfl rfl rfl rfl rfl
    · unfold fpColumn
      rw [if_neg (fun h => by rcases hww with h41 | h41 <;> omega),
        if_neg (fun h => by rcases hww with h41 | h41 <;> omega)]
    · exact nicknameStr_congr env _ rfl rfl rfl rfl
  · intro htog s hs
    have hcol : fpColumn env 43 =
        (ljust 40 (fingerprintStr env) ++ ("  ").data, 42) := by
      unfold fpColumn
      rw [if_pos ⟨by omega, htog⟩]
    have hcollen : (ljust 40 (fingerprintStr env) ++ ("  ").data).length =
        42 := by
      have h40 := ljust_length_exact (s := fingerprintStr env) (n := 40)
        (by omega)
      have hsp2 : (("  ").data) = ' ' :: ' ' :: [] := rfl
      simp only [hsp2, List.length_append, List.length_cons, List.length_nil]
      omega
    unfold getEtcContent at hs
    rw [if_neg happ] at hs
    obtain ⟨x, hd⟩ := destinationLabel_eq_slice env 26 true
    rw [hd] at hs
    dsimp only [] at hs
    rcases hlt with h | h <;> subst h
    · rw [if_pos rfl, hcol] at hs
      rw [if_neg (fun hc => by
        have := hc.1
        omega)] at hs
      cases hs
      exact ljustDyn_take_prefix _ 43 42 hcollen
    · rw [if_neg (by simp), if_neg (by simp), hcol] at hs
      rw [if_neg (fun hc => by
        have := hc.1
        omega)] at hs
      cases hs
      exact ljustDyn_take_prefix _ 43 42 hcollen
  · intro htog f3 hnick
    apply getEtcContent_congr env { env with relay_fingerprint := f3 } 43 lt
      rfl rfl rfl rfl rfl rfl rfl rfl rfl rfl rfl rfl
    · unfold fpColumn
      rw [if_neg (fun h => by
          have := h.2
          rw [htog] at this
          cases this),
        if_neg (fun h => by
          have := h.2
          rw [htog] at this
          cases this)]
    · exact hnick

/-- Witness for C3 at a concrete environment in IP_ADDRESS mode. -/
theorem C3_fingerprint_boundary_witness :
    (∀ b : Bool, ∀ w : Int, w = 41 ∨ w = 42 →
      getEtcContent
        { envFp with config := { envFp.config with show_fingerprint := b } }
        w IP_ADDRESS = getEtcContent envFp w IP_ADDRESS) ∧
    (envFp.config.show_fingerprint = true →
      ∀ s, getEtcContent envFp 43 IP_ADDRESS = some s →
        s.take 42 = ljust 40 (fingerprintStr envFp) ++ ("  ").data) ∧
    (envFp.config.show_fingerprint = false →
      ∀ f3, nicknameStr { envFp with relay_fingerprint := f3 } =
          nicknameStr envFp →
        getEtcContent { envFp with relay_fingerprint := f3 } 43 IP_ADDRESS =
          getEtcContent envFp 43 IP_ADDRESS) :=
  C3_fingerprint_boundary envFp IP_ADDRESS (Or.inl rfl) (by decide)
    (by decide)

/-- A cache is well-formed for an environment when every stored entry is the
skeleton `_get_listing_entry` would compute for its key (the `lru_cache`
invariant under unchanged external data). -/
def CacheWF (env : Env) (c : ListingCache) : Prop :=
  ∀ k v, cacheLookup c k = some v → listingEntrySkeleton env k.1 k.2 = some v

theorem listingEntrySkeleton_slot2 (env : Env) (w : Int) (lt : Listing)
    (l : List (Str × Fmt)) (h : listingEntrySkeleton env w lt = some l) :
    l.get? 2 = some (("      ").data, lineFmt env) ∧ l.length = 6 := by
  unfold listingEntrySkeleton at h
  cases hlc : listingContent env (w - 19) lt with
  | none =>
    rw [hlc] at h
    cases h
  | some content =>
    rw [hlc] at h
    dsimp only [] at h
    cases h
    exact ⟨rfl, rfl⟩

theorem cacheLookup_cons_self (c : ListingCache) (k : Int × Listing)
    (v : List (Str × Fmt)) : cacheLookup ((k, v) :: c) k = some v := by
  unfold cacheLookup
  simp [List.find?]

/-- C4: with unchanged external data, two successive `get_listing_entry`
calls at the same (width, mode) key agree everywhere except the uptime slot,
which is recomputed from `current_time - start_time` on each call; the age is
never part of the cached payload (every cached skeleton holds the six-space
placeholder in slot 2, and it is overwritten after every lookup), and the
second call is a pure cache hit. -/
theorem C4_cache_fresh_age (env : Env) (c : ListingCache)
    (width t1 t2 : Int) (lt : Listing)
    (hwf : CacheWF env c)
    (hsk : (listingEntrySkeleton env width lt).isSome) :
    ∃ r1 c1 r2 c2,
      getListingEntryCached env c width t1 lt = some (r1, c1) ∧
      getListingEntryCached env c1 width t2 lt = some (r2, c2) ∧
      c2 = c1 ∧ CacheWF env c1 ∧
      (∀ i, i ≠ 2 → r1.get? i = r2.get? i) ∧
      r1.get? 2 = some (timeLabelOf env t1, lineFmt env) ∧
      r2.get? 2 = some (timeLabelOf env t2, lineFmt env) ∧
      (∀ k v, cacheLookup c1 k = some v →
        v.get? 2 = some (("      ").data, lineFmt env)) := by
  obtain ⟨skel, hskel⟩ := Option.isSome_iff_exists.mp hsk
  obtain ⟨hslot, hlen6⟩ := listingEntrySkeleton_slot2 env width lt skel hskel
  have hset2 : ∀ t : Int, (skel.set 2 (timeLabelOf env t,
      lineFmt env)).get? 2 = some (timeLabelOf env t, lineFmt env) := by
    intro t
    rw [List.get?_set_eq, hslot]
    rfl
  have hsetne : ∀ (t : Int) (i : Nat), i ≠ 2 → (skel.set 2
      (timeLabelOf env t, lineFmt env)).get? i = skel.get? i := by
    intro t i hne
    exact List.get?_set_ne _ _ (fun h => hne h.symm)
  have hstep : ∀ (c0 : ListingCache) (t : Int),
      cacheLookup c0 (width, lt) = some skel →
      getListingEntryCached env c0 width t lt =
        some (skel.set 2 (timeLabelOf env t, lineFmt env), c0) := by
    intro c0 t hl
    unfold getListingEntryCached
    rw [hl]
    dsimp only []
    rw [hslot]
  cases hl : cacheLookup c (width, lt) with
  | some v =>
    have hv : listingEntrySkeleton env width lt = some v := hwf _ _ hl
    have hveq : v = skel := by
      rw [hskel] at hv
      cases hv
      rfl
    subst hveq
    refine ⟨_, c, _, c, hstep c t1 hl, hstep c t2 hl, rfl, hwf, ?_, ?_, ?_, ?_⟩
    · intro i hne
      rw [hsetne t1 i hne, hsetne t2 i hne]
    · exact hset2 t1
    · exact hset2 t2
    · intro k v2 hkv
      exact (listingEntrySkeleton_slot2 env k.1 k.2 v2 (hwf _ _ hkv)).1
  | none =>
    have hc1 : getListingEntryCached env c width t1 lt =
        some (skel.set 2 (timeLabelOf env t1, lineFmt env),
          ((width, lt), skel) :: c) := by
      unfold getListingEntryCached
      rw [hl, hskel]
      dsimp only []
      rw [hslot]
    have hwf1 : CacheWF env (((width, lt), skel) :: c) := by
      intro k v2 hkv
      by_cases hk : (width, lt) = k
      · subst hk
        rw [cacheLookup_cons_self] at hkv
        cases hkv
        exact hskel
      · have heq : cacheLookup (((width, lt), skel) :: c) k =
            cacheLookup c k := by
          unfold cacheLookup
          rw [List.find?_cons_of_neg _ (by simpa using hk)]
        rw [heq] at hkv
        exact hwf _ _ hkv
    refine ⟨_, ((width, lt), skel) :: c, _, ((width, lt), skel) :: c,
      hc1, hstep _ t2 (cacheLookup_cons_self c (width, lt) skel), rfl,
      hwf1, ?_, ?_, ?_, ?_⟩
    · intro i hne
      rw [hsetne t1 i hne, hsetne t2 i hne]
    · exact hset2 t1
    · exact hset2 t2
    · intro k v2 hkv
      exact (listingEntrySkeleton_slot2 env k.1 k.2 v2 (hwf1 _ _ hkv)).1

/-- Witness for C4: two calls from an empty cache at a concrete environment. -/
theorem C4_cache_fresh_age_witness :
    ∃ r1 c1 r2 c2,
      getListingEntryCached env0 [] 100 500 IP_ADDRESS = some (r1, c1) ∧
      getListingEntryCached env0 c1 100 600 IP_ADDRESS = some (r2, c2) ∧
      c2 = c1 ∧ CacheWF env0 c1 ∧
      (∀ i, i ≠ 2 → r1.get? i = r2.get? i) ∧
      r1.get? 2 = some (timeLabelOf env0 500, lineFmt env0) ∧
      r2.get? 2 = some (timeLabelOf env0 600, lineFmt env0) ∧
      (∀ k v, cacheLookup c1 k = some v →
        v.get? 2 = some (("      ").data, lineFmt env0)) :=
  C4_cache_fresh_age env0 [] 100 500 600 IP_ADDRESS
    (fun k v h => absurd h (by simp [cacheLookup])) (by decide)

theorem mapM_crop_lines (lines : List Str) (w : Int) (hw : 0 ≤ w) :
    ∃ ls, lines.mapM (fun l => crop l w (some 4) 0 ellipse) = some ls ∧
      ls.length = lines.length ∧ ∀ s ∈ ls, (s.length : Int) ≤ w := by
  induction lines with
  | nil => exact ⟨[], rfl, rfl, by simp⟩
  | cons a t ih =>
    obtain ⟨ls, hls, hlen, hall⟩ := ih
    have hca := crop_isSome a w (some 4) 0 ellipse hw (by simp) (by omega)
      (by simp)
    obtain ⟨ca, hcaeq⟩ := Option.isSome_iff_exists.mp hca
    refine ⟨ca :: ls, ?_, by simp [hlen], ?_⟩
    · rw [List.mapM_cons]
      rw [hcaeq, hls]
      rfl
    · intro s hs
      rcases List.mem_cons.mp hs with h | h
      · rw [h]
        exact crop_length_le hw hcaeq
      · exact hall s h

theorem detailContent_shape (env : Env) (width : Int) :
    ∃ lines : List Str, lines.length = 7 ∧
      detailContent env width =
        lines.mapM (fun l => crop l (width - 2) (some 4) 0 ellipse) := by
  unfold detailContent
  obtain ⟨x, hd⟩ := destinationLabel_eq_slice env (width - 11) false
  rw [hd]
  dsimp only []
  cases hf : getFingerprint env none with
  | some fp =>
    refine ⟨_, ?_, rfl⟩
    rfl
  | none =>
    by_cases hm : env.all_relay_fingerprints env.conn.remote_address ≠ []
    · rw [if_pos hm]
      refine ⟨_, ?_, rfl⟩
      rfl
    · rw [if_neg hm]
      refine ⟨_, ?_, rfl⟩
      rfl

/-- C5 counterexample: at widths 0 and 1 the detail page raises (the crop of
the nonempty address line is called with a negative size), so no 7-line page
of lines of length at most `width - 2` exists. -/
theorem C5_counterexample :
    getDetails env0 0 = none ∧ getDetails env0 1 = none := by
  constructor
  · decide
  · decide

/-- C5 (amended): for every width of at least 2, the detail page of
`get_details(width)` has exactly 7 lines and every line has length at most
`width - 2` (each line is cropped to `width - 2` as the final step); absent
data leaves a blank line and no error occurs. -/
theorem C5_details_shape (env : Env) (width : Int) (hw : 2 ≤ width) :
    ∃ ls, getDetails env width = some ls ∧ ls.length = 7 ∧
      ∀ p ∈ ls, (p.1.length : Int) ≤ width - 2 := by
  obtain ⟨lines, hl7, hdc⟩ := detailContent_shape env width
  obtain ⟨ls0, hm, hmlen, hall⟩ := mapM_crop_lines lines (width - 2)
    (by omega)
  unfold getDetails
  rw [hdc, hm]
  dsimp only []
  refine ⟨_, rfl, by simp [hmlen, hl7], ?_⟩
  intro p hp
  simp only [List.mem_map] at hp
  obtain ⟨s, hs, hps⟩ := hp
  rw [← hps]
  exact hall s hs

/-- Witness for C5 at a concrete environment and width. -/
theorem C5_details_shape_witness :
    ∃ ls, getDetails env0 30 = some ls ∧ ls.length = 7 ∧
      ∀ p ∈ ls, (p.1.length : Int) ≤ 30 - 2 :=
  C5_details_shape env0 30 (by decide)

theorem multiMatchSlot_candidate (ms : List (Nat × Str)) (i : Nat)
    (h : i < ms.length) (h3 : ¬ (i = 3 ∧ ms.length - i > 1)) :
    multiMatchSlot ms i = candidateLine i (ms.get ⟨i, h⟩) := by
  unfold multiMatchSlot
  rw [dif_pos h, if_neg h3]

theorem multiMatchSlot_more (ms : List (Nat × Str)) (h : 3 < ms.length)
    (hm : ms.length - 3 > 1) :
    multiMatchSlot ms 3 =
      ("... ").data ++ natStr (ms.length - 3) ++ (" more").data := by
  unfold multiMatchSlot
  rw [dif_pos h, if_pos ⟨rfl, hm⟩]

theorem candidateLine_length_le (i : Nat) (m : Nat × Str) (hi : i < 3)
    (hp : (natStr m.1).length ≤ 5) (hf : m.2.length ≤ 40) :
    (candidateLine i m).length ≤ 71 := by
  unfold candidateLine
  have h1 : (natStr (i + 1)).length = 1 := by
    interval_cases i <;> decide
  have hlj : ((ljust 5 (natStr m.1)).length : Int) = 5 :=
    ljust_length_exact (by push_cast; omega)
  simp only [List.length_append, List.length_cons, List.length_nil]
  push_cast
  omega

/-- C6: when no fingerprint resolves and more than four consensus candidates
share the remote address, the detail page renders candidates 1-3 verbatim in
slots 3-5 and replaces the fourth line with a `'... N more'` summary, where
N counts the remaining unlisted candidates (all candidates from the fourth
on). -/
theorem C6_multi_match (env : Env) (width : Int) (ms : List (Nat × Str))
    (hfp : getFingerprint env none = none)
    (hms : env.all_relay_fingerprints env.conn.remote_address = ms)
    (hn : 4 < ms.length)
    (hw : (73 : Int) ≤ width)
    (hb : ∀ m ∈ ms, (natStr m.1).length ≤ 5 ∧ m.2.length ≤ 40)
    (hmore : (9 + ((natStr (ms.length - 3)).length : Int)) ≤ width - 2) :
    ∃ ls, detailContent env width = some ls ∧
      ls.get? 3 = some (candidateLine 0 (ms.get ⟨0, by omega⟩)) ∧
      ls.get? 4 = some (candidateLine 1 (ms.get ⟨1, by omega⟩)) ∧
      ls.get? 5 = some (candidateLine 2 (ms.get ⟨2, by omega⟩)) ∧
      ls.get? 6 = some
        (("... ").data ++ natStr (ms.length - 3) ++ (" more").data) := by
  obtain ⟨x, hd⟩ := destinationLabel_eq_slice env (width - 11) false
  have hslot : ∀ i : Nat, (hi3 : i < 3) →
      multiMatchSlot ms i = candidateLine i (ms.get ⟨i, by omega⟩) := by
    intro i hi
    exact multiMatchSlot_candidate ms i (by omega) (fun hc => by omega)
  have hcrop : ∀ i : Nat, (hi : i < 3) →
      crop (multiMatchSlot ms i) (width - 2) (some 4) 0 ellipse =
        some (multiMatchSlot ms i) := by
    intro i hi
    apply crop_of_le
    rw [hslot i hi]
    have := candidateLine_length_le i (ms.get ⟨i, by omega⟩) hi
      (hb _ (ms.get_mem _ _)).1 (hb _ (ms.get_mem _ _)).2
    push_cast
    omega
  have hcrop3 : crop (multiMatchSlot ms 3) (width - 2) (some 4) 0 ellipse =
      some (multiMatchSlot ms 3) := by
    apply crop_of_le
    rw [multiMatchSlot_more ms (by omega) (by omega)]
    simp only [List.length_append, List.length_cons, List.length_nil]
    push_cast
    omega
  have hc0 := crop_isSome (("address: ").data ++ pySliceTo x (width - 11))
    (width - 2) (some 4) 0 ellipse (by omega) (by simp) (by omega) (by simp)
  obtain ⟨c0, hc0eq⟩ := Option.isSome_iff_exists.mp hc0
  have hc1 := crop_isSome (("locale: ").data ++
    (if env.entry_is_private then ("??").data
     else getLocale env (("??").data)))
    (width - 2) (some 4) 0 ellipse (by omega) (by simp) (by omega) (by simp)
  obtain ⟨c1, hc1eq⟩ := Option.isSome_iff_exists.mp hc1
  have hc2 := crop_isSome
    (("Multiple matches, possible fingerprints are:").data)
    (width - 2) (some 4) 0 ellipse (by omega) (by simp) (by omega) (by simp)
  obtain ⟨c2, hc2eq⟩ := Option.isSome_iff_exists.mp hc2
  unfold detailContent
  rw [hd]
  dsimp only []
  rw [hfp]
  dsimp only []
  rw [hms]
  rw [if_pos (by
    intro hnil
    rw [hnil] at hn
    simp at hn)]
  simp only [List.mapM_cons, List.mapM_nil, hc0eq, hc1eq, hc2eq,
    hcrop 0 (by omega), hcrop 1 (by omega), hcrop 2 (by omega), hcrop3,
    Option.bind_some, Option.some_bind, Option.pure_def]
  refine ⟨_, rfl, ?_, ?_, ?_, ?_⟩
  · rw [hslot 0 (by omega)]
    rfl
  · rw [hslot 1 (by omega)]
    rfl
  · rw [hslot 2 (by omega)]
    rfl
  · rw [multiMatchSlot_more ms (by omega) (by omega)]
    rfl

/-- Witness for C6: six concrete candidates render 1-3 verbatim and a fourth
line reading `'... 3 more'`. -/
theorem C6_multi_match_witness :
    ∃ ls, detailContent envMulti 100 = some ls ∧
      ls.get? 3 = some (candidateLine 0 (ms6.get ⟨0, by decide⟩)) ∧
      ls.get? 4 = some (candidateLine 1 (ms6.get ⟨1, by decide⟩)) ∧
      ls.get? 5 = some (candidateLine 2 (ms6.get ⟨2, by decide⟩)) ∧
      ls.get? 6 = some
        (("... ").data ++ natStr (ms6.length - 3) ++ (" more").data) :=
  C6_multi_match envMulti 100 ms6 (by decide) rfl (by decide) (by decide)
    (by decide) (by decide)
/-- C7: with six characters of purpose space the label reads `Torre-`, not
`Torrent`, and with three it carries no purpose (and no hyphen) at all. -/
theorem C7_counterexample :
    (destSpace envExit 21 = 6 ∧
      destinationLabel envExit 21 false
        = some (("1.2.3.4:6881 (Torre-)").data) ∧
      strContains (("1.2.3.4:6881 (Torre-)").data) (("Torrent").data)
        = false) ∧
    (destSpace envExit 18 = 3 ∧
      destinationLabel envExit 18 false
        = some (("1.2.3.4:6881 ()").data) ∧
      strContains (("1.2.3.4:6881 ()").data) (['-']) = false) := by
  constructor
  · refine ⟨by decide, by decide, by decide⟩
  · refine ⟨by decide, by decide, by decide⟩
/-- The `(Torrent)` annotation fits as is when seven characters of purpose
space are available. -/
theorem exit_label_core (env : Env) (m : Int) (p : Str)
    (he : env.entry_type = EXIT)
    (hip : env.include_port = true)
    (hsep : env.config.show_exit_port = true)
    (hpu : env.port_usage env.conn.remote_port = some (("BitTorrent").data))
    (hfit : ((destAddress env).length : Int) + 5 ≤ m)
    (hsmall : destSpace env m < 10)
    (hcrop : crop (("Torrent").data) (destSpace env m) (some 4) 0 hyphen
      = some p)
    (hout : ((destAddress env).length : Int) + 3 + p.length ≤ m) :
    destinationLabel env m false =
      some (destAddress env ++ (" (").data ++ p ++ (")").data) := by
  unfold destinationLabel
  rw [if_pos hfit]
  rw [if_pos ⟨he, hip, Or.inl hsep⟩]
  rw [hpu]
  have hpy : pyOr (some (("BitTorrent").data)) none
      = some (("BitTorrent").data) := by decide
  rw [hpy]
  dsimp only []
  have hep : exitPurpose1 env (("BitTorrent").data) m = ("Torrent").data := by
    unfold exitPurpose1
    refine if_pos ⟨?_, rfl⟩
    have h10 : ((("BitTorrent").data).length : Int) = 10 := by decide
    rw [h10]
    omega
  rw [hep, hcrop]
  dsimp only []
  congr 1
  apply pySliceTo_of_le
  have hsp : (" (").data = ' ' :: '(' :: [] := rfl
  have hcp : (")").data = ')' :: [] := rfl
  simp only [hsp, hcp, List.length_append, List.length_cons, List.length_nil]
  push_cast
  omega

/-- C7: at a budget with only six characters of purpose space, the crop turns
`Torrent` into `Torre-`, and at three it vanishes entirely. -/
theorem C7_bittorrent_budgets (env : Env)
    (he : env.entry_type = EXIT)
    (hip : env.include_port = true)
    (hsep : env.config.show_exit_port = true)
    (hpu : env.port_usage env.conn.remote_port = some (("BitTorrent").data)) :
    destinationLabel env (((destAddress env).length : Int) + 10) false =
      some (destAddress env ++ (" (Torrent)").data) ∧
    destinationLabel env (((destAddress env).length : Int) + 9) false =
      some (destAddress env ++ (" (Torre-)").data) ∧
    destinationLabel env (((destAddress env).length : Int) + 6) false =
      some (destAddress env ++ (" ()").data) := by
  have h7 : destSpace env (((destAddress env).length : Int) + 10) = 7 := by
    unfold destSpace
    omega
  have h6 : destSpace env (((destAddress env).length : Int) + 9) = 6 := by
    unfold destSpace
    omega
  have h3 : destSpace env (((destAddress env).length : Int) + 6) = 3 := by
    unfold destSpace
    omega
  refine ⟨?_, ?_, ?_⟩
  · have h := exit_label_core env (((destAddress env).length : Int) + 10)
      (("Torrent").data) he hip hsep hpu
      (by omega) (by rw [h7]; omega)
      (by rw [h7]; exact crop_of_le _ _ _ _ _ (by decide))
      (by
        have : ((("Torrent").data).length : Int) = 7 := by decide
        omega)
    rw [h]
    simp only [List.append_assoc]
    rw [show (" (").data ++ (("Torrent").data ++ (")").data)
      = (" (Torrent)").data from by decide]
  · have h := exit_label_core env (((destAddress env).length : Int) + 9)
      (("Torre-").data) he hip hsep hpu
      (by omega) (by rw [h6]; omega)
      (by rw [h6]; decide)
      (by
        have : ((("Torre-").data).length : Int) = 6 := by decide
        omega)
    rw [h]
    simp only [List.append_assoc]
    rw [show (" (").data ++ (("Torre-").data ++ (")").data)
      = (" (Torre-)").data from by decide]
  · have h := exit_label_core env (((destAddress env).length : Int) + 6)
      ([] : Str) he hip hsep hpu
      (by omega) (by rw [h3]; omega)
      (by rw [h3]; decide)
      (by
        have : (([] : Str).length : Int) = 0 := by decide
        omega)
    rw [h]
    simp only [List.append_assoc]
    rw [show (" (").data ++ (([] : Str) ++ (")").data)
      = (" ()").data from by decide]

/-- Witness for C7 at the concrete exit connection: budgets 22, 21 and 18. -/
theorem C7_bittorrent_budgets_witness :
    destinationLabel envExit 22 false
      = some (("1.2.3.4:6881 (Torrent)").data) ∧
    destinationLabel envExit 21 false
      = some (("1.2.3.4:6881 (Torre-)").data) ∧
    destinationLabel envExit 18 false
      = some (("1.2.3.4:6881 ()").data) := by
  have h := C7_bittorrent_budgets envExit rfl rfl rfl (by decide)
  have hda : destAddress envExit = ("1.2.3.4:6881").data := by decide
  rw [hda] at h
  have e1 : (((("1.2.3.4:6881").data).length : Nat) : Int) + 10 = 22 := by
    decide
  have e2 : (((("1.2.3.4:6881").data).length : Nat) : Int) + 9 = 21 := by
    decide
  have e3 : (((("1.2.3.4:6881").data).length : Nat) : Int) + 6 = 18 := by
    decide
  rw [e1, e2, e3] at h
  rw [show ("1.2.3.4:6881").data ++ (" (Torrent)").data
    = ("1.2.3.4:6881 (Torrent)").data from by decide] at h
  rw [show ("1.2.3.4:6881").data ++ (" (Torre-)").data
    = ("1.2.3.4:6881 (Torre-)").data from by decide] at h
  rw [show ("1.2.3.4:6881").data ++ (" ()").data
    = ("1.2.3.4:6881 ()").data from by decide] at h
  exact h
theorem rstrip_subset {c : Char} {s : Str} (h : c ∈ rstrip s) : c ∈ s := by
  unfold rstrip at h
  rw [List.mem_reverse] at h
  exact List.mem_reverse.mp ((List.dropWhile_sublist _).subset h)

theorem pySliceTo_subset {c : Char} {s : Str} {n : Int}
    (h : c ∈ pySliceTo s n) : c ∈ s := by
  unfold pySliceTo at h
  split at h
  · exact List.mem_of_mem_take h
  · exact List.mem_of_mem_take h

theorem pySliceTo_eq_take (s : Str) (n : Int) : ∃ k, pySliceTo s n = s.take k := by
  unfold pySliceTo
  split
  · exact ⟨_, rfl⟩
  · exact ⟨_, rfl⟩

theorem digit_ne_dot {m : Nat} (h : m < 10) : Char.ofNat (48 + m) ≠ '.' := by
  interval_cases m <;> decide

theorem natStrAux_no_dot : ∀ fuel n, '.' ∉ natStrAux fuel n := by
  intro fuel
  induction fuel with
  | zero => intro n h; exact absurd h (List.not_mem_nil _)
  | succ fuel ih =>
    intro n h
    unfold natStrAux at h
    by_cases hn : n < 10
    · rw [if_pos hn] at h
      rw [List.mem_singleton] at h
      exact digit_ne_dot hn h.symm
    · rw [if_neg hn] at h
      rw [List.mem_append] at h
      cases h with
      | inl h => exact ih _ h
      | inr h =>
        rw [List.mem_singleton] at h
        exact digit_ne_dot (Nat.mod_lt _ (by omega)) h.symm

theorem natStr_no_dot (n : Nat) : '.' ∉ natStr n := natStrAux_no_dot _ _

theorem cropWordbreakMsg_subset {c : Char} {msg : Str} {size1 : Int}
    (h : c ∈ cropWordbreakMsg msg size1) : c ∈ msg := by
  unfold cropWordbreakMsg at h
  split at h
  · exact absurd h (List.not_mem_nil _)
  · exact List.mem_of_mem_take h

theorem cropBody_hyphen_subset {msg r : Str} {size1 mwl mc : Int}
    (h : cropBody msg size1 mwl mc hyphen = some r) {c : Char} (hc : c ∈ r) :
    c ∈ msg ∨ c = '-' := by
  unfold cropBody at h
  split at h
  · injection h with h
    subst h
    exact absurd hc (List.not_mem_nil _)
  · split at h
    · split at h
      · split at h
        · exact Option.noConfusion h
        · injection h with h
          subst h
          rw [List.mem_append] at hc
          cases hc with
          | inl hc =>
            exact Or.inl
              (List.mem_of_mem_take (List.mem_of_mem_take (rstrip_subset hc)))
          | inr hc =>
            rw [List.mem_singleton] at hc
            exact Or.inr hc
      · rename_i hne
        exact absurd rfl hne
    · split at h
      · rename_i hcond
        exact absurd hcond.1 (by decide)
      · injection h with h
        subst h
        exact Or.inl (cropWordbreakMsg_subset hc)

theorem crop_hyphen_subset {msg r : Str} {size : Int} {mwl : Option Int}
    {mc : Int} (h : crop msg size mwl mc hyphen = some r) {c : Char}
    (hc : c ∈ r) : c ∈ msg ∨ c = '-' := by
  unfold crop at h
  split at h
  · injection h with h
    subst h
    exact Or.inl hc
  · split at h
    · exact Option.noConfusion h
    · split at h
      · exact Option.noConfusion h
      · split at h
        · exact Option.noConfusion h
        · exact cropBody_hyphen_subset h hc

theorem pyOr_none_inv {v : Option Str} {s : Str} (h : pyOr v none = some s) :
    v = some s := by
  cases v with
  | none =>
    unfold pyOr at h
    exact Option.noConfusion h
  | some t =>
    unfold pyOr at h
    dsimp only [] at h
    split at h
    · exact Option.noConfusion h
    · exact h

theorem strContains_eq_false {s pat : Str} {c : Char} (hc : c ∈ pat)
    (hs : c ∉ s) : strContains s pat = false := by
  rw [Bool.eq_false_iff]
  intro htrue
  unfold strContains at htrue
  rw [List.any_eq_true] at htrue
  obtain ⟨i, hi, heq⟩ := htrue
  rw [decide_eq_true_iff] at heq
  apply hs
  rw [← heq] at hc
  exact List.drop_subset _ _ (List.mem_of_mem_take hc)

theorem startsWith_take_of_le {x p : Str} {k : Nat} (hk : p.length ≤ k)
    (h : strStartsWith x p = true) : strStartsWith (x.take k) p = true := by
  unfold strStartsWith at h ⊢
  rw [decide_eq_true_iff] at h ⊢
  rw [List.take_take, min_eq_left hk]
  exact h

theorem startsWith_take_disj {x p : Str} (k : Nat)
    (h : strStartsWith x p = true) :
    strStartsWith (x.take k) p = true ∨ strStartsWith p (x.take k) = true := by
  by_cases hk : p.length ≤ k
  · exact Or.inl (startsWith_take_of_le hk h)
  · right
    unfold strStartsWith at h ⊢
    rw [decide_eq_true_iff] at h ⊢
    have hpx : p.length ≤ x.length := by
      have := congrArg List.length h
      rw [List.length_take] at this
      omega
    have hlen : (x.take k).length = k := by
      rw [List.length_take]
      omega
    rw [hlen, ← h, List.take_take, min_eq_left (by omega)]
theorem destinationLabel_scrub (env : Env) (m : Int) (il : Bool)
    (hpriv : env.entry_is_private = true)
    (hpu : ∀ s, env.port_usage env.conn.remote_port = some s → '.' ∉ s)
    (hloc : ∀ s, env.locale env.conn.remote_address = some s → '.' ∉ s) :
    ∃ out, destinationLabel env m il = some out ∧ '.' ∉ out ∧
      (strStartsWith out (("<scrubbed>").data) = true ∨
        strStartsWith (("<scrubbed>").data) out = true) ∧
      (10 ≤ m → strStartsWith out (("<scrubbed>").data) = true) := by
  have hda : destAddress env = ("<scrubbed>").data ++
      (if destIncludePort env then ':' :: natStr env.conn.remote_port
       else []) := by
    unfold destAddress
    rw [if_pos hpriv]
  have hda_nodot : '.' ∉ destAddress env := by
    rw [hda]
    intro hmem
    rw [List.mem_append] at hmem
    cases hmem with
    | inl hmem => exact absurd hmem (by decide)
    | inr hmem =>
      split at hmem
      · rw [List.mem_cons] at hmem
        cases hmem with
        | inl hmem => exact absurd hmem (by decide)
        | inr hmem => exact natStr_no_dot _ hmem
      · exact absurd hmem (List.not_mem_nil _)
  have key : ∀ extra : Str, '.' ∉ extra →
      '.' ∉ pySliceTo (destAddress env ++ extra) m ∧
      (strStartsWith (pySliceTo (destAddress env ++ extra) m)
          (("<scrubbed>").data) = true ∨
        strStartsWith (("<scrubbed>").data)
          (pySliceTo (destAddress env ++ extra) m) = true) ∧
      (10 ≤ m → strStartsWith (pySliceTo (destAddress env ++ extra) m)
          (("<scrubbed>").data) = true) := by
    intro extra hex
    have hsw : strStartsWith (destAddress env ++ extra)
        (("<scrubbed>").data) = true := by
      unfold strStartsWith
      rw [decide_eq_true_iff]
      rw [hda, List.append_assoc]
      exact List.take_left _ _
    refine ⟨?_, ?_, ?_⟩
    · intro hmem
      have hx := pySliceTo_subset hmem
      rw [List.mem_append] at hx
      cases hx with
      | inl hx => exact hda_nodot hx
      | inr hx => exact hex hx
    · obtain ⟨k, hk⟩ := pySliceTo_eq_take (destAddress env ++ extra) m
      rw [hk]
      exact startsWith_take_disj k hsw
    · intro hm
      unfold pySliceTo
      rw [if_pos (by omega)]
      refine startsWith_take_of_le ?_ hsw
      have h10 : ((("<scrubbed>").data).length : Int) = 10 := by decide
      omega
  have keyA : '.' ∉ pySliceTo (destAddress env) m ∧
      (strStartsWith (pySliceTo (destAddress env) m)
          (("<scrubbed>").data) = true ∨
        strStartsWith (("<scrubbed>").data)
          (pySliceTo (destAddress env) m) = true) ∧
      (10 ≤ m → strStartsWith (pySliceTo (destAddress env) m)
          (("<scrubbed>").data) = true) := by
    have h := key [] (List.not_mem_nil _)
    rwa [List.append_nil] at h
  unfold destinationLabel
  split
  · rename_i hfit
    split
    · cases hpo : pyOr (env.port_usage env.conn.remote_port) none with
      | none => exact ⟨_, rfl, keyA⟩
      | some purpose0 =>
        have hcs := crop_isSome (exitPurpose1 env purpose0 m)
          (destSpace env m) (some 4) 0 hyphen
          (by unfold destSpace; omega) (by simp) (by omega) (by simp)
        obtain ⟨p2, hp2⟩ := Option.isSome_iff_exists.mp hcs
        dsimp only []
        rw [hp2]
        have hp0 : '.' ∉ purpose0 := hpu _ (pyOr_none_inv hpo)
        have hp1 : '.' ∉ exitPurpose1 env purpose0 m := by
          unfold exitPurpose1
          split
          · decide
          · exact hp0
        have hex : '.' ∉ (" (").data ++ (p2 ++ (")").data) := by
          intro hmem
          rw [List.mem_append] at hmem
          cases hmem with
          | inl hmem => exact absurd hmem (by decide)
          | inr hmem =>
            rw [List.mem_append] at hmem
            cases hmem with
            | inl hmem =>
              cases crop_hyphen_subset hp2 hmem with
              | inl hmem => exact hp1 hmem
              | inr hmem => exact absurd hmem (by decide)
            | inr hmem => exact absurd hmem (by decide)
        have h := key ((" (").data ++ (p2 ++ (")").data)) hex
        refine ⟨_, rfl, ?_, ?_, ?_⟩
        · simp only [List.append_assoc]
          exact h.1
        · simp only [List.append_assoc]
          exact h.2.1
        · simp only [List.append_assoc]
          exact h.2.2
    · split
      · by_cases hil : il ∧ ¬ env.is_geoip_unavailable
        · rw [if_pos hil]
          dsimp only []
          have hlo : '.' ∉ getLocale env (("??").data) := by
            unfold getLocale
            cases hl : env.locale env.conn.remote_address with
            | none => decide
            | some s =>
              dsimp only [Option.getD]
              exact hloc _ hl
          have hex : '.' ∉ (" (").data ++
              (getLocale env (("??").data) ++ (")").data) := by
            intro hmem
            rw [List.mem_append] at hmem
            cases hmem with
            | inl hmem => exact absurd hmem (by decide)
            | inr hmem =>
              rw [List.mem_append] at hmem
              cases hmem with
              | inl hmem => exact hlo hmem
              | inr hmem => exact absurd hmem (by decide)
          have h := key ((" (").data ++
            (getLocale env (("??").data) ++ (")").data)) hex
          refine ⟨_, rfl, ?_, ?_, ?_⟩
          · simp only [List.append_assoc]
            exact h.1
          · simp only [List.append_assoc]
            exact h.2.1
          · simp only [List.append_assoc]
            exact h.2.2
        · rw [if_neg hil]
          dsimp only []
          exact ⟨_, rfl, keyA⟩
      · exact ⟨_, rfl, keyA⟩
  · exact ⟨_, rfl, keyA⟩

/-- C8: the scrub token can be cut off by a narrow budget: at `max_length` 5
the private label is `<scru`, which does not contain `<scrubbed>`. -/
theorem C8_counterexample :
    envPriv.entry_is_private = true ∧
    destinationLabel envPriv 5 false = some (("<scru").data) ∧
    strContains (("<scru").data) (("<scrubbed>").data) = false := by
  refine ⟨rfl, by decide, by decide⟩

/-- C8: a private entry's label never contains the real remote address (which
carries a dot, while every character of the label comes from dot-free
sources), and it is always an initial segment of a string starting with the
scrub token, the full token appearing whenever ten characters fit. -/
theorem C8_private_no_leak (env : Env) (m : Int) (il : Bool)
    (hpriv : env.entry_is_private = true)
    (hdot : '.' ∈ env.conn.remote_address)
    (hpu : ∀ s, env.port_usage env.conn.remote_port = some s → '.' ∉ s)
    (hloc : ∀ s, env.locale env.conn.remote_address = some s → '.' ∉ s) :
    ∃ out, destinationLabel env m il = some out ∧
      strContains out env.conn.remote_address = false ∧
      (strStartsWith out (("<scrubbed>").data) = true ∨
        strStartsWith (("<scrubbed>").data) out = true) ∧
      (10 ≤ m → strStartsWith out (("<scrubbed>").data) = true) := by
  obtain ⟨out, hout, hnodot, hdisj, hfull⟩ :=
    destinationLabel_scrub env m il hpriv hpu hloc
  exact ⟨out, hout, strContains_eq_false hdot hnodot, hdisj, hfull⟩

/-- Witness for C8 at the concrete private entry and `max_length` 30. -/
theorem C8_private_no_leak_witness :
    ∃ out, destinationLabel envPriv 30 false = some out ∧
      strContains out envPriv.conn.remote_address = false ∧
      (strStartsWith out (("<scrubbed>").data) = true ∨
        strStartsWith (("<scrubbed>").data) out = true) ∧
      (10 ≤ (30 : Int) → strStartsWith out (("<scrubbed>").data) = true) :=
  C8_private_no_leak envPriv 30 false rfl (by decide)
    (fun s h => by
      rw [show envPriv.port_usage envPriv.conn.remote_port = none from rfl]
        at h
      exact Option.noConfusion h)
    (fun s h => by
      rw [show envPriv.locale envPriv.conn.remote_address = none from rfl]
        at h
      exact Option.noConfusion h)
theorem fingerprintStr_unresolved (env : Env)
    (hfp : env.relay_fingerprint env.conn.remote_address env.conn.remote_port
      = none) :
    fingerprintStr env = ("UNKNOWN").data := by
  unfold fingerprintStr getFingerprint
  split
  · rw [hfp]
    rfl
  · rfl

theorem nicknameStr_unresolved (env : Env)
    (hfp : env.relay_fingerprint env.conn.remote_address env.conn.remote_port
      = none)
    (hrn : env.relay_nickname none = none) :
    nicknameStr env = ("UNKNOWN").data := by
  unfold nicknameStr getNickname getFingerprint
  split
  · rw [hfp]
    show (pyOr (env.relay_nickname (pyOr none none))
      (some (("UNKNOWN").data))).getD _ = _
    rw [show pyOr (none : Option Str) none = none from rfl, hrn]
    rfl
  · rw [hrn]
    rfl

theorem destinationLabel_nonexit (env env2 : Env) (m : Int) (il : Bool)
    (hconn : env2.conn = env.conn)
    (h1 : env.entry_type ≠ EXIT) (h2 : env2.entry_type ≠ EXIT)
    (hpriv : env2.entry_is_private = env.entry_is_private)
    (hip : env2.include_port = env.include_port)
    (hpa : env2.is_private_address = env.is_private_address)
    (hgeo : env2.is_geoip_unavailable = env.is_geoip_unavailable)
    (hlocale : env2.locale = env.locale) :
    destinationLabel env2 m il = destinationLabel env m il := by
  have hdip : destIncludePort env2 ↔ destIncludePort env := by
    constructor
    · intro h
      exact ⟨by rw [← hip]; exact h.1, Or.inr h1⟩
    · intro h
      exact ⟨by rw [hip]; exact h.1, Or.inr h2⟩
  have hda : destAddress env2 = destAddress env := by
    unfold destAddress
    rw [hconn, hpriv, if_congr hdip rfl rfl]
  unfold destinationLabel
  rw [if_neg (show ¬ (env2.entry_type = EXIT ∧ destIncludePort env2) from
    fun hc => h2 hc.1)]
  rw [if_neg (show ¬ (env.entry_type = EXIT ∧ destIncludePort env) from
    fun hc => h1 hc.1)]
  simp only [getLocale, hda, hconn, hpa, hgeo, hlocale]

theorem getEtcContent_congr2 (env env2 : Env) (width : Int) (lt : Listing)
    (happ : ¬ appCategory env) (happ2 : ¬ appCategory env2)
    (hdl : destinationLabel env2 26 true = destinationLabel env 26 true)
    (hfs : fingerprintStr env2 = fingerprintStr env)
    (hns : nicknameStr env2 = nicknameStr env)
    (hsn : env2.config.show_nickname = env.config.show_nickname)
    (hsd : env2.config.show_destination = env.config.show_destination)
    (hsf : env2.config.show_fingerprint = env.config.show_fingerprint) :
    getEtcContent env2 width lt = getEtcContent env width lt := by
  have hfpc : fpColumn env2 width = fpColumn env width := by
    unfold fpColumn
    rw [hfs, hsf]
  unfold getEtcContent
  rw [if_neg happ2, if_neg happ, hdl]
  cases destinationLabel env 26 true with
  | none => rfl
  | some d =>
    dsimp only []
    rw [hfpc, hns]
    simp only [fpModeNickSpace, fpModeLocaleIncluded, hsn, hsd]
theorem listingParts_congr (env env2 : Env) (width : Int) (lt : Listing)
    (hconn : env2.conn = env.conn)
    (hcfg : env2.config = env.config)
    (hip : env2.include_port = env.include_port)
    (hiea : env2.include_expanded_addresses
      = env.include_expanded_addresses)
    (hext : env2.external_address = env.external_address)
    (hcn : env2.conf_nickname = env.conf_nickname)
    (hpriv : env2.entry_is_private = env.entry_is_private)
    (hpa : env2.is_private_address = env.is_private_address)
    (hgeo : env2.is_geoip_unavailable = env.is_geoip_unavailable)
    (hloc : env2.locale = env.locale)
    (hne : env.entry_type ≠ EXIT) (hne2 : env2.entry_type ≠ EXIT)
    (happ : ¬ appCategory env) (happ2 : ¬ appCategory env2)
    (hfs : fingerprintStr env2 = fingerprintStr env)
    (hns : nicknameStr env2 = nicknameStr env)
    (hexp : env.config.show_expanded_ip = false) :
    listingParts env2 width lt = listingParts env width lt := by
  have hdl : destinationLabel env2 26 true = destinationLabel env 26 true :=
    destinationLabel_nonexit env env2 26 true hconn hne hne2 hpriv hip hpa
      hgeo hloc
  have hetc : ∀ w lt2, getEtcContent env2 w lt2 = getEtcContent env w lt2 :=
    fun w lt2 => getEtcContent_congr2 env env2 w lt2 happ happ2 hdl hfs hns
      (by rw [hcfg]) (by rw [hcfg]) (by rw [hcfg])
  have hipsa : ipSrcAddress env2 = ipSrcAddress env := by
    unfold ipSrcAddress myExternalAddress localPortLabel
    rw [if_pos happ2, if_pos happ, hconn, hext, hip]
  have hnsc : env.entry_type = SOCKS ∨ env.entry_type = CONTROL → False :=
    fun h => happ (h.elim (fun h => Or.inl h) (fun h => Or.inr (Or.inr h)))
  have hnsc2 : env2.entry_type = SOCKS ∨ env2.entry_type = CONTROL → False :=
    fun h => happ2 (h.elim (fun h => Or.inl h) (fun h => Or.inr (Or.inr h)))
  have hsd : ∀ d, ipSrcDst env2 d = ipSrcDst env d := by
    intro d
    unfold ipSrcDst
    rw [if_neg hnsc2, if_neg hnsc, hipsa]
  have hexp2 : env2.config.show_expanded_ip = false := by
    rw [hcfg]
    exact hexp
  have hu1 : ∀ d, ipUsed1 env2 d = ipUsed1 env d := by
    intro d
    unfold ipUsed1
    rw [hsd d]
  have hsrc : ∀ d, ipSrc env2 width d = ipSrc env width d := by
    intro d
    unfold ipSrc
    rw [if_neg (ipExpand_not env2 width d hexp2),
      if_neg (ipExpand_not env width d hexp), hsd d]
  have hu2 : ∀ d, ipUsed2 env2 width d = ipUsed2 env width d := by
    intro d
    unfold ipUsed2
    rw [if_neg (ipExpand_not env2 width d hexp2),
      if_neg (ipExpand_not env width d hexp), hu1 d]
  have hctl : env.entry_type = CONTROL → False :=
    fun h => happ (Or.inr (Or.inr h))
  have hctl2 : env2.entry_type = CONTROL → False :=
    fun h => happ2 (Or.inr (Or.inr h))
  have hfpd : fpModeDst env2 = fpModeDst env := by
    unfold fpModeDst
    rw [if_neg hctl2, if_neg hctl, hfs]
  have hnsrc : nickSrc env2 = nickSrc env := by
    unfold nickSrc confNickname
    rw [hcn]
  have hndst : nickDst env2 = nickDst env := by
    unfold nickDst
    rw [if_neg hctl2, if_neg hctl, hns]
  unfold listingParts
  by_cases hlt : lt = IP_ADDRESS
  · rw [if_pos hlt, if_pos hlt, hdl]
    cases destinationLabel env 26 true with
    | none => rfl
    | some d =>
      dsimp only []
      rw [hu2 d, hetc]
      cases getEtcContent env (width - ipUsed2 env width d) lt with
      | none => rfl
      | some etc =>
        dsimp only []
        rw [hsrc d, hsd d]
  · rw [if_neg hlt, if_neg hlt]
    by_cases hft : lt = FINGERPRINT
    · rw [if_pos hft, if_pos hft, hfpd, hetc]
    · rw [if_neg hft, if_neg hft, hetc]
      cases getEtcContent env (width - usedSpaceBase - 50) lt with
      | none => rfl
      | some etc =>
        dsimp only []
        rw [hnsrc, hndst]
/-- C9: an inbound row need not be the swap of the equivalent outbound row:
reclassifying `envFpIn` as outbound changes the fingerprint lookup (inbound
connections never resolve one), so the etc column differs and the rows are
not mere field swaps of each other. -/
theorem C9_counterexample :
    envFpIn = { envFp with entry_type := INBOUND } ∧
    listingContent envFpIn 110 IP_ADDRESS ≠
      (listingParts envFp 110 IP_ADDRESS).map
        (fun q => labelFormat q.2.1 q.1 q.2.2.1 q.2.2.2) := by
  refine ⟨rfl, by decide⟩

/-- `envNoExp` reclassified as inbound. -/
def envIn9 : Env :=
  { envNoExp with entry_type := INBOUND }

/-- C9: for an inbound connection with no resolvable fingerprint and the
expanded-address column off, the four assembled fields agree with those of
the same connection reclassified as outbound, the inbound row interpolates
them with src and dst swapped while the outbound row does not, and in
IP_ADDRESS mode the SOCKS and CONTROL reclassifications pre-swap the base
src/dst assignment relative to the outbound one. -/
theorem C9_inbound_swap (env : Env) (width : Int) (lt : Listing)
    (hin : env.entry_type = INBOUND)
    (hfp : env.relay_fingerprint env.conn.remote_address env.conn.remote_port
      = none)
    (hrn : env.relay_nickname none = none)
    (hexp : env.config.show_expanded_ip = false) :
    listingParts { env with entry_type := OUTBOUND } width lt
        = listingParts env width lt ∧
    (∀ p, listingParts env width lt = some p →
      listingContent env width lt
          = some (labelFormat p.2.1 p.1 p.2.2.1 p.2.2.2) ∧
      listingContent { env with entry_type := OUTBOUND } width lt
          = some (labelFormat p.1 p.2.1 p.2.2.1 p.2.2.2)) ∧
    (∀ d, ipSrcDst { env with entry_type := SOCKS } d
        = (ljust 21 d,
           ljust 26 (ipSrcAddress { env with entry_type := SOCKS })) ∧
      ipSrcDst { env with entry_type := CONTROL } d
        = (ljust 21 d,
           ljust 26 (ipSrcAddress { env with entry_type := CONTROL })) ∧
      ipSrcDst { env with entry_type := OUTBOUND } d
        = (ljust 21 (ipSrcAddress { env with entry_type := OUTBOUND }),
           ljust 26 d)) := by
  have happ : ¬ appCategory env := by
    intro h
    rcases h with h | h | h <;> rw [hin] at h <;> exact Category.noConfusion h
  have happ2 : ¬ appCategory { env with entry_type := OUTBOUND } := by
    intro h
    rcases h with h | h | h <;> exact Category.noConfusion h
  have hne : env.entry_type ≠ EXIT := by
    rw [hin]
    exact fun h => Category.noConfusion h
  have hfs : fingerprintStr { env with entry_type := OUTBOUND }
      = fingerprintStr env := by
    rw [fingerprintStr_unresolved env hfp,
      fingerprintStr_unresolved { env with entry_type := OUTBOUND } hfp]
  have hns : nicknameStr { env with entry_type := OUTBOUND }
      = nicknameStr env := by
    rw [nicknameStr_unresolved env hfp hrn,
      nicknameStr_unresolved { env with entry_type := OUTBOUND } hfp hrn]
  have hparts : listingParts { env with entry_type := OUTBOUND } width lt
      = listingParts env width lt :=
    listingParts_congr env { env with entry_type := OUTBOUND } width lt
      rfl rfl rfl rfl rfl rfl rfl rfl rfl rfl
      hne (fun h => Category.noConfusion h) happ happ2 hfs hns hexp
  refine ⟨hparts, ?_, ?_⟩
  · intro p hp
    obtain ⟨s, d2, e2, pa⟩ := p
    constructor
    · unfold listingContent
      rw [hp]
      dsimp only []
      rw [if_pos hin]
    · unfold listingContent
      rw [hparts, hp]
      dsimp only []
      rw [if_neg (show ({ env with entry_type := OUTBOUND } : Env).entry_type
        = INBOUND → False from fun h => Category.noConfusion h)]
  · intro d
    refine ⟨?_, ?_, ?_⟩
    · unfold ipSrcDst
      rw [if_pos (Or.inl rfl)]
    · unfold ipSrcDst
      rw [if_pos (Or.inr rfl)]
    · unfold ipSrcDst
      rw [if_neg (show ({ env with entry_type := OUTBOUND } : Env).entry_type
          = SOCKS ∨ ({ env with entry_type := OUTBOUND } : Env).entry_type
          = CONTROL → False from
        fun h => h.elim (fun h => Category.noConfusion h)
          (fun h => Category.noConfusion h))]
/-- Witness for C9 at the concrete inbound connection, width 100,
IP_ADDRESS mode. -/
theorem C9_inbound_swap_witness :
    listingParts { envIn9 with entry_type := OUTBOUND } 100 IP_ADDRESS
        = listingParts envIn9 100 IP_ADDRESS ∧
    (∀ p, listingParts envIn9 100 IP_ADDRESS = some p →
      listingContent envIn9 100 IP_ADDRESS
          = some (labelFormat p.2.1 p.1 p.2.2.1 p.2.2.2) ∧
      listingContent { envIn9 with entry_type := OUTBOUND } 100 IP_ADDRESS
          = some (labelFormat p.1 p.2.1 p.2.2.1 p.2.2.2)) ∧
    (∀ d, ipSrcDst { envIn9 with entry_type := SOCKS } d
        = (ljust 21 d,
           ljust 26 (ipSrcAddress { envIn9 with entry_type := SOCKS })) ∧
      ipSrcDst { envIn9 with entry_type := CONTROL } d
        = (ljust 21 d,
           ljust 26 (ipSrcAddress { envIn9 with entry_type := CONTROL })) ∧
      ipSrcDst { envIn9 with entry_type := OUTBOUND } d
        = (ljust 21 (ipSrcAddress { envIn9 with entry_type := OUTBOUND }),
           ljust 26 d)) :=
  C9_inbound_swap envIn9 100 IP_ADDRESS rfl rfl rfl rfl
/-- C10: for application-owned categories the etc field always comes back
(no exception): the process label padded to the width when it fits strictly,
an empty field otherwise; and the label is `name (pid)` when resolved with a
nonzero pid, the bare name without one, `resolving...` while pending and
`UNKNOWN` when no owner is known. -/
theorem C10_app_label (env : Env) (width : Int) (lt : Listing)
    (happ : appCategory env) :
    ∃ s, getEtcContent env width lt = some s ∧
      (((appDisplayLabel env (appPort env)).length : Int) < width →
        s = ljustDyn width (appDisplayLabel env (appPort env)) ∧
        (s.length : Int) = width) ∧
      (¬ ((appDisplayLabel env (appPort env)).length : Int) < width →
        s = []) ∧
      (∀ name pid,
        env.port_usage_fetch (appPort env)
            = ProcessResult.resolved name (some pid) → pid ≠ 0 →
        appDisplayLabel env (appPort env)
            = name ++ (" (").data ++ natStr pid ++ (")").data) ∧
      (∀ name,
        env.port_usage_fetch (appPort env) = ProcessResult.resolved name none →
        appDisplayLabel env (appPort env) = name) ∧
      (env.port_usage_fetch (appPort env) = ProcessResult.pending →
        appDisplayLabel env (appPort env) = ("resolving...").data) ∧
      (env.port_usage_fetch (appPort env) = ProcessResult.unknown →
        appDisplayLabel env (appPort env) = ("UNKNOWN").data) := by
  have hres : (∀ name pid,
        env.port_usage_fetch (appPort env)
            = ProcessResult.resolved name (some pid) → pid ≠ 0 →
        appDisplayLabel env (appPort env)
            = name ++ (" (").data ++ natStr pid ++ (")").data) ∧
      (∀ name,
        env.port_usage_fetch (appPort env) = ProcessResult.resolved name none →
        appDisplayLabel env (appPort env) = name) ∧
      (env.port_usage_fetch (appPort env) = ProcessResult.pending →
        appDisplayLabel env (appPort env) = ("resolving...").data) ∧
      (env.port_usage_fetch (appPort env) = ProcessResult.unknown →
        appDisplayLabel env (appPort env) = ("UNKNOWN").data) := by
    refine ⟨?_, ?_, ?_, ?_⟩
    · intro name pid hr hpid
      unfold appDisplayLabel
      rw [hr]
      dsimp only []
      rw [if_pos hpid]
    · intro name hr
      unfold appDisplayLabel
      rw [hr]
    · intro hr
      unfold appDisplayLabel
      rw [hr]
    · intro hr
      unfold appDisplayLabel
      rw [hr]
  unfold getEtcContent
  rw [if_pos happ]
  by_cases hfit : ((appDisplayLabel env (appPort env)).length : Int) < width
  · rw [if_pos hfit]
    refine ⟨_, rfl, fun _ => ⟨rfl, ?_⟩, fun hn => absurd hfit hn, hres⟩
    exact ljustDyn_length_exact (by omega) (by omega)
  · rw [if_neg hfit]
    exact ⟨[], rfl, fun h => absurd h hfit, fun _ => rfl, hres⟩

/-- Witness for C10: the SOCKS connection whose remote port resolves to
`firefox` with pid 1234, at width 30. -/
theorem C10_app_label_witness :
    ∃ s, getEtcContent envSocks 30 IP_ADDRESS = some s ∧
      (((appDisplayLabel envSocks (appPort envSocks)).length : Int) < 30 →
        s = ljustDyn 30 (appDisplayLabel envSocks (appPort envSocks)) ∧
        (s.length : Int) = 30) ∧
      (¬ ((appDisplayLabel envSocks (appPort envSocks)).length : Int) < 30 →
        s = []) ∧
      (∀ name pid,
        envSocks.port_usage_fetch (appPort envSocks)
            = ProcessResult.resolved name (some pid) → pid ≠ 0 →
        appDisplayLabel envSocks (appPort envSocks)
            = name ++ (" (").data ++ natStr pid ++ (")").data) ∧
      (∀ name,
        envSocks.port_usage_fetch (appPort envSocks)
            = ProcessResult.resolved name none →
        appDisplayLabel envSocks (appPort envSocks) = name) ∧
      (envSocks.port_usage_fetch (appPort envSocks) = ProcessResult.pending →
        appDisplayLabel envSocks (appPort envSocks) = ("resolving...").data) ∧
      (envSocks.port_usage_fetch (appPort envSocks) = ProcessResult.unknown →
        appDisplayLabel envSocks (appPort envSocks) = ("UNKNOWN").data) :=
  C10_app_label envSocks 30 IP_ADDRESS (Or.inl rfl)
